import Mathlib

/-!
# Verification of the billing-rule execution engine

A shallow embedding, in Lean 4, of the core of the `portal-backend-production`
repository: the two rule engines (`rule_21.py`, `rule_22.py`), the in-memory
progress tracker (`progress_tracker.py`) and the run orchestration
(`router/rules.py`).  Remote HTTP calls are modelled by an explicit `World`
oracle supplying the data the Athena API would return; remote writes are
modelled as accepted by the remote system and recorded in an explicit effect
trace (the Python failure branches only exist to absorb network errors and
toggle success booleans).  Python floats used for percentages are modelled as
rationals, Python ints as `Int`, Python dicts keyed by strings as association
lists with exact string equality.
-/

namespace Portal

/-- Python's `t in s` on strings: `strLeads t s` checks that `t` is an initial
segment of `s` (character lists). -/
def strLeads : List Char → List Char → Bool
  | [], _ => true
  | _ :: _, [] => false
  | a :: t, b :: s => decide (a = b) && strLeads t s

/-- Python's substring operator `t in s` (character lists): `t` occurs
contiguously somewhere in `s`. -/
def strInside (t : List Char) : List Char → Bool
  | [] => strLeads t []
  | b :: s => strLeads t (b :: s) || strInside t s

/-- Python's substring operator `t in s` on `String`s. -/
def pySubstr (t s : String) : Bool :=
  strInside t.toList s.toList

/-- Python's `s.startswith(pre)` (character lists, kernel-computable). -/
def strStarts (s pre : String) : Bool :=
  strLeads pre.toList s.toList

/-- Python's `s.endswith(suf)` (character lists, kernel-computable). -/
def strEnds (s suf : String) : Bool :=
  strLeads suf.toList.reverse s.toList.reverse

/-- A diagnosis record as returned by the services API (`icd10code` field). -/
structure Diagnosis where
  icd10code : String
deriving Repr, DecidableEq

/-- A procedure/service record as returned by
`GET encounter/{id}/services` (`procedurecode`, `serviceid`, `diagnoses`). -/
structure ServiceProcedure where
  procedurecode : String
  serviceid : String
  diagnoses : List Diagnosis
deriving Repr, DecidableEq

/-! ## Rule 22: decision logic (`rule_22.py`) -/

/-- `Rule22.target_procedure_codes`: the fixed list of 22 target codes. -/
def targetProcedureCodes : List String :=
  ["72170", "72190", "73000", "73010", "73030", "73060", "73070", "73080",
   "73110", "73130", "73140", "73502", "73521", "73522", "73552", "73562",
   "73564", "73565", "73590", "73610", "73630", "73650"]

/-- The target-procedure guard of `apply_rule_conditions_to_patients` and
`rollback_rule_conditions_to_patients`:
`any(target_code in procedure_code for target_code in self.target_procedure_codes)`.
Note the Python `in` is the substring operator. -/
def isTargetProcedure (procedureCode : String) : Bool :=
  targetProcedureCodes.any (fun t => pySubstr t procedureCode)

/-- Spec-side reading of the target test, per the spec's words: membership of
the procedure code in the fixed set of 22 codes.  Kept separate from
`isTargetProcedure` (the code's substring test) so the two can be compared. -/
def isTargetBySpecMembership (procedureCode : String) : Bool :=
  decide (procedureCode ∈ targetProcedureCodes)

/-- `Rule22._determine_modifier_from_diagnoses`: scan the diagnosis list in
order; on the first code starting with `"M"`, dispatch on its last character
(`"1"` → RT, `"2"` → LT, `"0"` → `"50"`); other `"M"`-codes are skipped and the
scan continues; `None` when nothing matches. -/
def determineModifierFromDiagnoses : List Diagnosis → Option String
  | [] => none
  | d :: rest =>
    let code := d.icd10code
    if strStarts code "M" then
      if strEnds code "1" then some "RT"
      else if strEnds code "2" then some "LT"
      else if strEnds code "0" then some "50"
      else determineModifierFromDiagnoses rest
    else determineModifierFromDiagnoses rest

/-- A diagnosis selects a modifier iff its code starts with `"M"` and ends with
`"1"`, `"2"` or `"0"`. -/
def diagSelects (d : Diagnosis) : Bool :=
  strStarts d.icd10code "M" &&
    (strEnds d.icd10code "1" || strEnds d.icd10code "2" || strEnds d.icd10code "0")

/-- The modifier a selecting diagnosis chooses (suffix `"1"` → RT,
`"2"` → LT, `"0"` → `"50"`, matching the `elif` chain's priority). -/
def modifierOfDiag (d : Diagnosis) : String :=
  if strEnds d.icd10code "1" then "RT"
  else if strEnds d.icd10code "2" then "LT"
  else "50"

/-- C4: for every ordered diagnosis list, Rule 22's modifier selection
returns the modifier (RT/LT/"50" for suffix 1/2/0) of the first diagnosis
whose ICD-10 code starts with `"M"` and ends with `"1"`, `"2"` or `"0"`, and
`none` exactly when no diagnosis matches. -/
theorem rule22_modifier_selection_first_match (l : List Diagnosis) :
    determineModifierFromDiagnoses l = (l.find? diagSelects).map modifierOfDiag := by
  induction l with
  | nil => rfl
  | cons d rest ih =>
    by_cases hM : strStarts d.icd10code "M"
    · by_cases h1 : strEnds d.icd10code "1"
      · simp [determineModifierFromDiagnoses, List.find?, diagSelects, modifierOfDiag, hM, h1]
      · by_cases h2 : strEnds d.icd10code "2"
        · simp [determineModifierFromDiagnoses, List.find?, diagSelects, modifierOfDiag,
            hM, h1, h2]
        · by_cases h0 : strEnds d.icd10code "0"
          · simp [determineModifierFromDiagnoses, List.find?, diagSelects, modifierOfDiag,
              hM, h1, h2, h0]
          · simp [determineModifierFromDiagnoses, List.find?, diagSelects,
              hM, h1, h2, h0, ih]
    · simp [determineModifierFromDiagnoses, List.find?, diagSelects, hM, ih]

/-! ## Appointment data and the remote world -/

/-- One claim attached to an appointment; only its `procedures` list is
inspected (for emptiness) by `is_missing_slip`. -/
structure ClaimRecord where
  procedures : List String
deriving Repr, DecidableEq

/-- The appointment payload returned by `GET appointments/booked`, restricted
to the fields the rules read.  `dateOrd` models the `date` field after
`datetime.strptime(date, "%m/%d/%Y")`: `some d` is the parsed date as a day
ordinal, `none` stands for a missing/empty or unparseable date (the `except`
branch of the parse). -/
structure Appointment where
  appointmentid : String
  patientid : String
  encounterid : String
  dateOrd : Option Int
  encounterstatus : String
  chargeentrynotrequired : Bool
  claims : List ClaimRecord
deriving Repr, DecidableEq

/-- One entry of the `patients` list of a rule request (the `PatientRequest`
pydantic model shared by `rule_21.py` and `rule_22.py`). -/
structure PatientRequest where
  appointmentid : String
  appointmentdate : String
  patientid : String
  firstname : String
  lastname : String
  dob : String
deriving Repr, DecidableEq

/-- The remote Athena system, as the rules observe it.
`getAppointment` models `get_appointment_for_patient` (`none` = no
appointment found or a failed request), `getServices` models
`get_encounter_services` (a failed request yields `[]`, exactly as the code's
`except` branches do), and `today` is `date.today()` as a day ordinal.
Remote `PUT` writes are modelled as accepted by the remote system; the
engines record each write in an explicit effect trace instead. -/
structure World where
  getAppointment : PatientRequest → Option Appointment
  getServices : String → List ServiceProcedure
  today : Int

/-- A per-patient outcome row (the `PatientResult` pydantic model of
`rule_21.py`/`rule_22.py`): status 1 = changes made, 2 = condition met no
changes, 3 = condition not met, 4 = error. -/
structure RulePatientResult where
  patientid : String
  appointmentid : String
  status : Int
  reason : String
deriving Repr, DecidableEq

/-- A rule request (the `Rule21Request`/`Rule22Request` pydantic models). -/
structure RuleRequest where
  add_modifiers : Bool
  patients : List PatientRequest
  is_rollback : Bool
deriving Repr, DecidableEq

/-- A rule response (the `Rule21Response`/`Rule22Response` pydantic models,
restricted to the fields the orchestrator consumes). -/
structure RuleResponse where
  success : Bool
  message : String
  results : List RulePatientResult
deriving Repr, DecidableEq

/-! ## Rule 21 (`rule_21.py`) -/

/-- `Rule21.eligible_codes`: the E&M visit codes. -/
def eligibleCodes : List String :=
  ["99202", "99203", "99204", "99205", "99212", "99213", "99214", "99215"]

/-- `Rule21.injection_codes`. -/
def injectionCodes : List String :=
  ["20526", "20527", "20550", "20551", "20552", "20553", "20600", "20604",
   "20605", "20610", "20611"]

/-- The checks of `Rule21.is_missing_slip` that follow the date check:
CLOSED encounter, charge entry not required, claims emptiness,
procedures-in-claims emptiness, in source order. -/
def isMissingSlipRest (a : Appointment) : Bool × String :=
  if a.encounterstatus = "CLOSED" then (false, "Encounter status is CLOSED")
  else if a.chargeentrynotrequired then (false, "Charge entry not required")
  else if a.claims = [] then (true, "No claims found")
  else if a.claims.any (fun c => !c.procedures.isEmpty) then
    (false, "Slip appears complete")
  else (true, "No procedures found in claims")

/-- `Rule21.is_missing_slip`: the missing-slip precondition with its reason
string.  A parsed appointment date not earlier than today short-circuits to
"Future appointment"; a missing or unparseable date falls through, as the
bare `except: pass` does. -/
def isMissingSlip (today : Int) (a : Appointment) : Bool × String :=
  match a.dateOrd with
  | some d =>
    if d ≥ today then (false, "Future appointment")
    else isMissingSlipRest a
  | none => isMissingSlipRest a

/-- `Rule21.check_procedure_codes_detailed`: which of the two code families
occur among the encounter's procedures (pair = `has_eligible_code`,
`has_injection_code`; the dict's `has_both` entry is their conjunction). -/
def checkProcedureCodesDetailed (procs : List ServiceProcedure) : Bool × Bool :=
  (procs.any (fun p => decide (p.procedurecode ∈ eligibleCodes)),
   procs.any (fun p => decide (p.procedurecode ∈ injectionCodes)))

/-- The per-patient analysis record built by
`Rule21.apply_rule_conditions_to_patients` (the dict literal's fields that the
status derivation reads). -/
structure R21Analysis where
  patient_id : String
  appointment_id : String
  encounter_id : String
  addmodifier : Bool
  has_eligible_code : Bool
  has_injection_code : Bool
  modifier_added_successfully : Bool
  missing_reason : String
deriving Repr, DecidableEq

/-- One iteration of the patient loop of
`Rule21.apply_rule_conditions_to_patients`.  With remote writes modelled as
accepted, `modifier_added_successfully` is true iff the modifier-25 write loop
issues at least one `PUT` — i.e. `has_both` holds, `add_modifiers` was
requested, and some procedure in either code family has a non-empty
`serviceid`. -/
def rule21AnalyzePatient (w : World) (addModifiers : Bool) (p : PatientRequest) :
    R21Analysis :=
  match w.getAppointment p with
  | none =>
    ⟨p.patientid, p.appointmentid, "", false, false, false, false,
      "No appointment data found"⟩
  | some a =>
    let ms := isMissingSlip w.today a
    if ms.1 then
      let eid := a.encounterid
      if eid ≠ "" then
        let procs := w.getServices eid
        if procs ≠ [] then
          let cd := checkProcedureCodesDetailed procs
          let addm := cd.1 && cd.2
          let added := addm && addModifiers &&
            procs.any (fun pr =>
              (decide (pr.procedurecode ∈ eligibleCodes) ||
               decide (pr.procedurecode ∈ injectionCodes)) &&
              decide (pr.serviceid ≠ ""))
          ⟨p.patientid, p.appointmentid, eid, addm, cd.1, cd.2, added, ms.2⟩
        else
          ⟨p.patientid, p.appointmentid, eid, false, false, false, false, ms.2⟩
      else
        ⟨p.patientid, p.appointmentid, "", false, false, false, false, ms.2⟩
    else
      ⟨p.patientid, p.appointmentid, a.encounterid, false, false, false, false,
        "Does not meet missing slip criteria"⟩

/-- `Rule21.determine_status_and_reason` (status, reason). -/
def rule21DetermineStatusAndReason (slip : R21Analysis) (modifierAdded : Bool)
    (errorOccurred : Bool := false) (errorMessage : String := "") : Int × String :=
  if errorOccurred then (4, "error: " ++ errorMessage)
  else if !slip.addmodifier then
    if slip.has_eligible_code && !slip.has_injection_code then
      (3, "not eligible for modifier: E&M codes present but missing injection codes (requires both 99202-99215 and 20526-20611)")
    else if slip.has_injection_code && !slip.has_eligible_code then
      (3, "not eligible for modifier: injection codes present but missing E&M visit codes (requires both 99202-99215 and 20526-20611)")
    else
      (3, "not eligible for modifier: missing required procedure codes (requires both E&M codes 99202-99215 and injection codes 20526-20611)")
  else if modifierAdded then (1, "modifier 25 added")
  else (2, "modifier 25 already exists")

/-- The rollback branch of `Rule21.run`'s merge loop.  Due to the dedent of
the lines after the `is_rollback` branch in `Rule21.run`, `patient_results`
is always the output of `apply_rule_conditions_to_patients`; on a rollback
request those dicts carry neither a `modifier_removed` nor a `reason` key,
so `matching_result.get("modifier_removed", False)` is `False` and
`matching_result.get("reason", "Unknown error")` is `"Unknown error"`, which
the `elif` chain then rewrites. -/
def rule21RollbackMerge (_r : R21Analysis) : Int × String :=
  (3, "Eligible for rollback but claim already created")

/-- The merge loop of `Rule21.run`: for each requested patient, take the
first analysis row with the same `patient_id` and derive the status. -/
def rule21MergeEntry (isRollback : Bool) (analyses : List R21Analysis)
    (p : PatientRequest) : RulePatientResult :=
  match analyses.find? (fun r => decide (r.patient_id = p.patientid)) with
  | some r =>
    let sr := if isRollback then rule21RollbackMerge r
              else rule21DetermineStatusAndReason r r.modifier_added_successfully
    ⟨p.patientid, p.appointmentid, sr.1, sr.2⟩
  | none => ⟨p.patientid, p.appointmentid, 4, "error: Patient data not found"⟩

/-- `Rule21.run`.  On a rollback request the source's dedented block re-runs
`apply_rule_conditions_to_patients` and overwrites the rollback results, so
`patient_results` is the apply-mode analysis in both modes (see
`rule21RollbackMerge`). -/
def rule21Run (w : World) (req : RuleRequest) : RuleResponse :=
  if req.patients = [] then
    ⟨false,
      if req.is_rollback then "No patients provided for rollback"
      else "No patients provided in request", []⟩
  else
    let analyses := req.patients.map (rule21AnalyzePatient w req.add_modifiers)
    let results := req.patients.map (rule21MergeEntry req.is_rollback analyses)
    ⟨true,
      if req.is_rollback then
        "Rule 21 rollback completed. Processed " ++ toString req.patients.length ++ " patients."
      else
        "Rule 21 analysis completed. Processed " ++ toString req.patients.length ++ " patients.",
      results⟩

/-! ## Rule 22: execution (`rule_22.py`) -/

/-- One remote write issued by Rule 22: the `PUT
encounter/{encounter_id}/services/{service_id}` payload built by
`update_service_with_modifier` (`modifiers` plus, when the Z0189 replacement
is requested, `icd10codes = "Z0189"`).  A rollback write
(`rollback_service_modifiers`) has `modifiers = []` and, for a 73560
procedure, `icd10codes = ""`. -/
structure ServiceUpdate where
  encounter_id : String
  service_id : String
  modifiers : List String
  icd10codes : Option String
deriving Repr, DecidableEq

/-- The `modifiers` payload of `update_service_with_modifier`: the selected
modifier, plus `"59"` appended when the procedure code is `"73030"`. -/
def rule22ModifiersPayload (modifier : String) (procedureCode : String) :
    List String :=
  if procedureCode = "73030" then [modifier, "59"] else [modifier]

/-- The opposite-modifier formula of `_handle_paired_procedure_logic`:
`"RT" if original_modifier == "LT" else "LT"`. -/
def oppositeModifier (m : String) : String :=
  if m = "LT" then "RT" else "LT"

/-- `_handle_paired_procedure_logic`'s sibling search: the first procedure of
the encounter whose code is exactly `"73560"`. -/
def findPairedProcedure (procs : List ServiceProcedure) : Option ServiceProcedure :=
  procs.find? (fun pr => decide (pr.procedurecode = "73560"))

/-- The per-patient analysis record built by
`Rule22.apply_rule_conditions_to_patients`, together with the trace of remote
writes the iteration issued. -/
structure R22Analysis where
  patient_id : String
  appointment_id : String
  encounter_id : String
  target_procedure_found : Bool
  diagnosis_code_found : Bool
  modifier_required : Bool
  modifier_applied : Bool
  modifier_type : String
  paired_procedure_found : Bool
  paired_modifier_applied : Bool
  diagnosis_replaced : Bool
  reason : String
  trace : List ServiceUpdate
deriving Repr, DecidableEq

/-- The writes one procedure-loop iteration of
`apply_rule_conditions_to_patients` issues: nothing unless the target guard
and a diagnosis-selected modifier hold and `add_modifiers` was requested;
otherwise the primary write, followed — when the procedure code is exactly
`"73564"` and a sibling `"73560"` exists — by the paired write with the
opposite modifier and the Z0189 diagnosis replacement. -/
def rule22EmitsFor (eid : String) (procs : List ServiceProcedure)
    (addModifiers : Bool) (pr : ServiceProcedure) : List ServiceUpdate :=
  if isTargetProcedure pr.procedurecode then
    match determineModifierFromDiagnoses pr.diagnoses with
    | some m =>
      if addModifiers then
        let primary : ServiceUpdate :=
          ⟨eid, pr.serviceid, rule22ModifiersPayload m pr.procedurecode, none⟩
        if pr.procedurecode = "73564" then
          match findPairedProcedure procs with
          | some pp =>
            [primary,
             ⟨eid, pp.serviceid,
              rule22ModifiersPayload (oppositeModifier m) pp.procedurecode,
              some "Z0189"⟩]
          | none => [primary]
        else [primary]
      else []
    | none => []
  else []

/-- The loop state of one patient's procedure scan in
`apply_rule_conditions_to_patients` (the mutable flags, the running reason and
the write trace). -/
structure R22Scan where
  target_procedure_found : Bool
  diagnosis_code_found : Bool
  modifier_required : Bool
  modifier_applied : Bool
  modifier_type : String
  paired_procedure_found : Bool
  paired_modifier_applied : Bool
  diagnosis_replaced : Bool
  reason : String
  trace : List ServiceUpdate
deriving Repr, DecidableEq

/-- The initial scan state (`reason = 'No target procedures found'`). -/
def r22ScanInit : R22Scan :=
  ⟨false, false, false, false, "", false, false, false,
    "No target procedures found", []⟩

/-- One iteration of the procedure loop of
`apply_rule_conditions_to_patients`.  Remote writes are accepted, so the
`success` branches are taken whenever a write is issued. -/
def r22ScanStep (eid : String) (procs : List ServiceProcedure)
    (addModifiers : Bool) (s : R22Scan) (pr : ServiceProcedure) : R22Scan :=
  if isTargetProcedure pr.procedurecode then
    let s := { s with target_procedure_found := true }
    match determineModifierFromDiagnoses pr.diagnoses with
    | some m =>
      let s := { s with diagnosis_code_found := true, modifier_required := true,
                        modifier_type := m }
      if addModifiers then
        let primary : ServiceUpdate :=
          ⟨eid, pr.serviceid, rule22ModifiersPayload m pr.procedurecode, none⟩
        let s := { s with modifier_applied := true,
                          reason := "Modifier " ++ m ++ " applied successfully",
                          trace := s.trace ++ [primary] }
        if pr.procedurecode = "73564" then
          match findPairedProcedure procs with
          | some pp =>
            let opp := oppositeModifier m
            { s with paired_procedure_found := true,
                     paired_modifier_applied := true,
                     diagnosis_replaced := true,
                     reason := "Modifier " ++ m ++ " and paired modifier " ++ opp
                       ++ " applied",
                     trace := s.trace ++
                       [⟨eid, pp.serviceid,
                         rule22ModifiersPayload opp pp.procedurecode,
                         some "Z0189"⟩] }
          | none => s
        else s
      else s
    | none =>
      { s with reason := "Target procedure " ++ pr.procedurecode
          ++ " found but no matching diagnosis" }
  else s

/-- One iteration of the patient loop of
`Rule22.apply_rule_conditions_to_patients`. -/
def rule22AnalyzePatient (w : World) (addModifiers : Bool) (p : PatientRequest) :
    R22Analysis :=
  match w.getAppointment p with
  | none =>
    ⟨p.patientid, p.appointmentid, "", false, false, false, false, "",
      false, false, false, "No appointment data found", []⟩
  | some a =>
    let eid := a.encounterid
    if eid ≠ "" then
      let procs := w.getServices eid
      let s := procs.foldl (r22ScanStep eid procs addModifiers) r22ScanInit
      ⟨p.patientid, p.appointmentid, eid, s.target_procedure_found,
        s.diagnosis_code_found, s.modifier_required, s.modifier_applied,
        s.modifier_type, s.paired_procedure_found, s.paired_modifier_applied,
        s.diagnosis_replaced, s.reason, s.trace⟩
    else
      ⟨p.patientid, p.appointmentid, "", false, false, false, false, "",
        false, false, false, "No target procedures found", []⟩

/-- The per-patient record built by
`Rule22.rollback_rule_conditions_to_patients`, with its write trace. -/
structure R22Rollback where
  patient_id : String
  appointment_id : String
  encounter_id : String
  modifier_removed : Bool
  diagnosis_reverted : Bool
  reason : String
  trace : List ServiceUpdate
deriving Repr, DecidableEq

/-- The loop state of one patient's rollback scan. -/
structure R22RollbackScan where
  modifier_removed : Bool
  diagnosis_reverted : Bool
  reason : String
  trace : List ServiceUpdate
deriving Repr, DecidableEq

/-- One iteration of the rollback procedure loop: every procedure passing the
(substring) target guard gets a modifier-clearing write; a `"73560"`
procedure additionally has its diagnosis blanked, marking
`diagnosis_reverted`. -/
def r22RollbackStep (eid : String) (s : R22RollbackScan) (pr : ServiceProcedure) :
    R22RollbackScan :=
  if isTargetProcedure pr.procedurecode then
    let upd : ServiceUpdate :=
      ⟨eid, pr.serviceid, [],
        if pr.procedurecode = "73560" then some "" else none⟩
    let s := { s with modifier_removed := true,
                      reason := "Modifiers removed from " ++ pr.procedurecode,
                      trace := s.trace ++ [upd] }
    if pr.procedurecode = "73560" then
      { s with diagnosis_reverted := true,
               reason := "Modifiers removed from " ++ pr.procedurecode
                 ++ " and diagnosis reverted" }
    else s
  else s

/-- One iteration of the patient loop of
`Rule22.rollback_rule_conditions_to_patients` (the 50-patient batching only
inserts delays and does not change which patients are processed or in which
order). -/
def rule22RollbackPatient (w : World) (p : PatientRequest) : R22Rollback :=
  match w.getAppointment p with
  | none =>
    ⟨p.patientid, p.appointmentid, "", false, false,
      "No appointment data found", []⟩
  | some a =>
    let eid := a.encounterid
    if eid ≠ "" then
      let procs := w.getServices eid
      if procs ≠ [] then
        let s := procs.foldl (r22RollbackStep eid)
          ⟨false, false, "No eligible services found for rollback", []⟩
        ⟨p.patientid, p.appointmentid, eid, s.modifier_removed,
          s.diagnosis_reverted, s.reason, s.trace⟩
      else
        ⟨p.patientid, p.appointmentid, eid, false, false,
          "No procedures found", []⟩
    else
      ⟨p.patientid, p.appointmentid, "", false, false,
        "No encounter ID found", []⟩

/-- The apply-mode branch of `Rule22.run`'s merge loop (status, reason). -/
def rule22ApplyMerge (r : R22Analysis) : Int × String :=
  if !r.target_procedure_found then (3, "no target procedure codes found")
  else if !r.modifier_required then (3, "no matching diagnosis codes found")
  else if r.modifier_applied then
    (1, "modifier " ++ r.modifier_type ++ " applied successfully")
  else (2, "modifier " ++ r.modifier_type ++ " already exists")

/-- The rollback branch of `Rule22.run`'s merge loop: status 1 when a
modifier-clearing write went through, else 3; the reason is the record's. -/
def rule22RollbackMerge (r : R22Rollback) : Int × String :=
  if r.modifier_removed then (1, r.reason) else (3, r.reason)

/-- The merge loop of `Rule22.run` in apply mode: first analysis row with the
same `patient_id`, else a status-4 row. -/
def rule22MergeEntryApply (analyses : List R22Analysis) (p : PatientRequest) :
    RulePatientResult :=
  match analyses.find? (fun r => decide (r.patient_id = p.patientid)) with
  | some r =>
    let sr := rule22ApplyMerge r
    ⟨p.patientid, p.appointmentid, sr.1, sr.2⟩
  | none => ⟨p.patientid, p.appointmentid, 4, "error: Patient data not found"⟩

/-- The merge loop of `Rule22.run` in rollback mode. -/
def rule22MergeEntryRollback (analyses : List R22Rollback) (p : PatientRequest) :
    RulePatientResult :=
  match analyses.find? (fun r => decide (r.patient_id = p.patientid)) with
  | some r =>
    let sr := rule22RollbackMerge r
    ⟨p.patientid, p.appointmentid, sr.1, sr.2⟩
  | none => ⟨p.patientid, p.appointmentid, 4, "error: Patient data not found"⟩

/-- `Rule22.run`. -/
def rule22Run (w : World) (req : RuleRequest) : RuleResponse :=
  if req.patients = [] then
    ⟨false,
      if req.is_rollback then "No patients provided for rollback"
      else "No patients provided in request", []⟩
  else if req.is_rollback then
    let analyses := req.patients.map (rule22RollbackPatient w)
    ⟨true,
      "Rule 22 rollback completed. Processed " ++ toString req.patients.length ++ " patients.",
      req.patients.map (rule22MergeEntryRollback analyses)⟩
  else
    let analyses := req.patients.map (rule22AnalyzePatient w req.add_modifiers)
    ⟨true,
      "Rule 22 analysis completed. Processed " ++ toString req.patients.length ++ " patients.",
      req.patients.map (rule22MergeEntryApply analyses)⟩

/-! ## Progress tracker (`services/progress_tracker.py`)

The in-memory store is a Python dict keyed by execution id; it is modelled as
an association list with exact string keys and unique-key discipline
(`uuid.uuid4()` keys are fresh).  Percentages (Python floats whose values
here are always exact) are modelled as rationals; `patients_processed` and
`total_patients` (Python ints) as `Int`.  The `started_at`/`updated_at`
timestamp strings are not modelled: no claim inspects them. -/

/-- Python's two-argument `min`, used for the percentage clamp (computable on
`ℚ`). -/
def pyMin (a b : ℚ) : ℚ := if a ≤ b then a else b

/-- Look up a key in an association list (Python `d[k]` / `k in d`). -/
def lookupA {α : Type} (k : String) : List (String × α) → Option α
  | [] => none
  | (k', v) :: rest => if k' = k then some v else lookupA k rest

/-- Replace the value at a key of an association list, leaving order and the
other entries unchanged (Python `d[k] = f(d[k])`). -/
def updateA {α : Type} (k : String) (f : α → α) : List (String × α) → List (String × α)
  | [] => []
  | (k', v) :: rest =>
    if k' = k then (k', f v) :: rest else (k', v) :: updateA k f rest

/-- Insert or overwrite a key (Python `d[k] = v`). -/
def insertA {α : Type} (k : String) (v : α) (l : List (String × α)) :
    List (String × α) :=
  if (lookupA k l).isSome then updateA k (fun _ => v) l else l ++ [(k, v)]

/-- `ExecutionStatus` (`progress_tracker.py`). -/
inductive ExecStatus where
  | pending
  | running
  | completed
  | error
deriving Repr, DecidableEq

/-- Per-rule progress (`rule_progress[str(rule_num)]`). -/
structure RuleProgress where
  percentage : ℚ
  patients_processed : Int
  total_patients : Int
  status : ExecStatus
deriving Repr, DecidableEq

/-- The `overall` sub-dict of a progress entry. -/
structure OverallProgress where
  percentage : ℚ
  patients_processed : Int
  total_patients : Int
  current_rule : Option Int
  total_rules : Nat
  rules_completed : Int
deriving Repr, DecidableEq

/-- One execution's entry in `ProgressTracker._progress_store`. -/
structure ExecEntry where
  status : ExecStatus
  overall : OverallProgress
  rules : List (String × RuleProgress)
  project_name : String
  error_message : Option String
deriving Repr, DecidableEq

/-- The tracker store (`_progress_store`). -/
abbrev TrackerState : Type := List (String × ExecEntry)

/-- `ProgressTracker.create_execution`, with the freshly generated
`uuid.uuid4()` id passed in explicitly. -/
def createExecution (executionId : String) (totalPatients : Int)
    (rules : List Int) (projectName : String) (st : TrackerState) : TrackerState :=
  let ruleProgress : List (String × RuleProgress) :=
    rules.map (fun r => (toString r, ⟨0, 0, totalPatients, .pending⟩))
  insertA executionId
    { status := .pending
      overall :=
        { percentage := 0
          patients_processed := 0
          total_patients := totalPatients
          current_rule := rules.head?
          total_rules := rules.length
          rules_completed := 0 }
      rules := ruleProgress
      project_name := projectName
      error_message := none } st

/-- `ProgressTracker._update_overall_progress`: overall percentage is the sum
of per-rule percentages divided by `total_rules` (early-return with 0 when
`total_rules == 0`, in which case `patients_processed` is left untouched);
overall `patients_processed` is the sum of per-rule counts. -/
def updateOverallProgress (e : ExecEntry) : ExecEntry :=
  if e.overall.total_rules = 0 then
    { e with overall := { e.overall with percentage := 0 } }
  else
    let totalPct := (e.rules.map (fun kv => kv.2.percentage)).sum
    let totalProc := (e.rules.map (fun kv => kv.2.patients_processed)).sum
    { e with overall :=
        { e.overall with
            percentage := totalPct / (e.overall.total_rules : ℚ)
            patients_processed := totalProc } }

/-- The entry rewrite `start_execution` applies. -/
def startExecutionF : ExecEntry → ExecEntry :=
  fun e => { e with status := .running }

/-- `ProgressTracker.start_execution` (no-op for an unknown id). -/
def startExecution (executionId : String) (st : TrackerState) : TrackerState :=
  if (lookupA executionId st).isSome then
    updateA executionId startExecutionF st
  else st

/-- The per-rule rewrite `start_rule` applies. -/
def startRuleG : RuleProgress → RuleProgress :=
  fun rd => { rd with status := .running }

/-- The entry rewrite `start_rule` applies. -/
def startRuleF (ruleNumber : Int) : ExecEntry → ExecEntry :=
  fun e =>
    { e with
        rules := updateA (toString ruleNumber) startRuleG e.rules
        overall := { e.overall with current_rule := some ruleNumber } }

/-- `ProgressTracker.start_rule` (no-op for an unknown id or rule). -/
def startRule (executionId : String) (ruleNumber : Int) (st : TrackerState) :
    TrackerState :=
  match lookupA executionId st with
  | none => st
  | some e =>
    if (lookupA (toString ruleNumber) e.rules).isSome then
      updateA executionId (startRuleF ruleNumber) st
    else st

/-- The per-rule rewrite `update_rule_progress` applies: store the given
count verbatim and recompute the rule percentage
(`min(processed / total * 100, 100.0)` when `total > 0`, else 0). -/
def updateRuleProgressG (patientsProcessed : Int) : RuleProgress → RuleProgress :=
  fun rd =>
    { rd with
        patients_processed := patientsProcessed
        percentage :=
          if rd.total_patients > 0 then
            pyMin ((patientsProcessed : ℚ) / (rd.total_patients : ℚ) * 100) 100
          else 0 }

/-- The entry rewrite `update_rule_progress` applies (rule rewrite followed
by the overall recomputation). -/
def updateRuleProgressF (ruleNumber : Int) (patientsProcessed : Int) :
    ExecEntry → ExecEntry :=
  fun e =>
    updateOverallProgress
      { e with
          rules := updateA (toString ruleNumber)
            (updateRuleProgressG patientsProcessed) e.rules }

/-- `ProgressTracker.update_rule_progress` (no-op for an unknown id or
rule). -/
def updateRuleProgress (executionId : String) (ruleNumber : Int)
    (patientsProcessed : Int) (st : TrackerState) : TrackerState :=
  match lookupA executionId st with
  | none => st
  | some e =>
    match lookupA (toString ruleNumber) e.rules with
    | none => st
    | some _ =>
      updateA executionId (updateRuleProgressF ruleNumber patientsProcessed) st

/-- The per-rule rewrite `complete_rule` applies: completed status, count set
to the total, percentage 100. -/
def completeRuleG : RuleProgress → RuleProgress :=
  fun rd =>
    { rd with
        status := .completed
        patients_processed := rd.total_patients
        percentage := 100 }

/-- The entry rewrite `complete_rule` applies (rule rewrite, bump of
`rules_completed`, overall recomputation). -/
def completeRuleF (ruleNumber : Int) : ExecEntry → ExecEntry :=
  fun e =>
    updateOverallProgress
      { e with
          rules := updateA (toString ruleNumber) completeRuleG e.rules
          overall := { e.overall with
            rules_completed := e.overall.rules_completed + 1 } }

/-- `ProgressTracker.complete_rule` (no-op for an unknown id or rule). -/
def completeRule (executionId : String) (ruleNumber : Int) (st : TrackerState) :
    TrackerState :=
  match lookupA executionId st with
  | none => st
  | some e =>
    if (lookupA (toString ruleNumber) e.rules).isSome then
      updateA executionId (completeRuleF ruleNumber) st
    else st

/-- The entry rewrite `complete_execution` applies: unconditionally
overwrite the status with `completed`/`error` according to `success`, set
the overall percentage to 100 and clear `current_rule`. -/
def completeExecutionF (success : Bool) : ExecEntry → ExecEntry :=
  fun e =>
    { e with
        status := if success then .completed else .error
        overall := { e.overall with percentage := 100, current_rule := none } }

/-- `ProgressTracker.complete_execution` (no-op for an unknown id). -/
def completeExecution (executionId : String) (success : Bool) (st : TrackerState) :
    TrackerState :=
  if (lookupA executionId st).isSome then
    updateA executionId (completeExecutionF success) st
  else st

/-- The entry rewrite `set_execution_error` applies: unconditionally
overwrite the status with `error` and record the message. -/
def setExecutionErrorF (errorMessage : String) : ExecEntry → ExecEntry :=
  fun e => { e with status := .error, error_message := some errorMessage }

/-- `ProgressTracker.set_execution_error` (no-op for an unknown id). -/
def setExecutionError (executionId : String) (errorMessage : String)
    (st : TrackerState) : TrackerState :=
  if (lookupA executionId st).isSome then
    updateA executionId (setExecutionErrorF errorMessage) st
  else st

/-- The API shape of `ProgressTracker.get_progress` (rules 21 and 22 pulled
out of the per-rule map, absent rules defaulting to an all-zero pending
record). -/
structure ProgressView where
  execution_id : String
  status : ExecStatus
  overall : OverallProgress
  rule_21 : RuleProgress
  rule_22 : RuleProgress
  error_message : Option String
deriving Repr, DecidableEq

/-- The default record `get_progress` substitutes for an absent rule. -/
def defaultRuleProgress : RuleProgress := ⟨0, 0, 0, .pending⟩

/-- `ProgressTracker.get_progress` (`none` for an unknown execution id). -/
def getProgress (executionId : String) (st : TrackerState) : Option ProgressView :=
  match lookupA executionId st with
  | none => none
  | some e =>
    some
      { execution_id := executionId
        status := e.status
        overall := e.overall
        rule_21 := (lookupA "21" e.rules).getD defaultRuleProgress
        rule_22 := (lookupA "22" e.rules).getD defaultRuleProgress
        error_message := e.error_message }

/-- The tracker's mutators other than `create_execution`, as a trace
alphabet. -/
inductive TrackerOp where
  | opStartExecution (executionId : String)
  | opStartRule (executionId : String) (ruleNumber : Int)
  | opUpdateRuleProgress (executionId : String) (ruleNumber : Int)
      (patientsProcessed : Int)
  | opCompleteRule (executionId : String) (ruleNumber : Int)
  | opCompleteExecution (executionId : String) (success : Bool)
  | opSetExecutionError (executionId : String) (errorMessage : String)
deriving Repr, DecidableEq

/-- Apply one mutator call to the store. -/
def trackerStep (st : TrackerState) : TrackerOp → TrackerState
  | .opStartExecution eid => startExecution eid st
  | .opStartRule eid r => startRule eid r st
  | .opUpdateRuleProgress eid r n => updateRuleProgress eid r n st
  | .opCompleteRule eid r => completeRule eid r st
  | .opCompleteExecution eid ok => completeExecution eid ok st
  | .opSetExecutionError eid msg => setExecutionError eid msg st

/-- Apply a sequence of mutator calls in order. -/
def trackerRun (st : TrackerState) : List TrackerOp → TrackerState
  | [] => st
  | op :: ops => trackerRun (trackerStep st op) ops

/-! ## Run orchestration (`router/rules.py`) -/

/-- The batching loop of `execute_rules_background`
(`for batch_start in range(0, total_patients, batch_size)` with
`batch_size = 10`): the patient list cut into consecutive slices of 10. -/
def batched10 {α : Type} : List α → List (List α)
  | [] => []
  | a :: rest => ((a :: rest).take 10) :: batched10 (rest.drop 9)
termination_by l => l.length
decreasing_by simp [List.length_drop]; omega

/-- One rule outcome inside a merged patient record (the `PatientRuleDetail`
pydantic model: `rule_number` is `str(rule_number)`). -/
structure PatientRuleDetail where
  rule_number : String
  status : Int
  reason : String
deriving Repr, DecidableEq

/-- A merged per-patient record (the router's `PatientResult` pydantic model;
the `rollback_status`/`rollbacked_at` markers, which only the database
rollback-update path writes, are not modelled). -/
structure MergedPatientResult where
  patientid : String
  appointmentid : String
  appointment_date : String
  first_name : String
  last_name : String
  dob : String
  status_1_changes_made : Int
  status_2_condition_met_no_changes : Int
  status_3_condition_not_met : Int
  status_4_errors : Int
  details : List PatientRuleDetail
deriving Repr, DecidableEq

/-- The request body of `POST run` (the `UnifiedRuleRequest` pydantic model).
The loosely-typed `patients: List[Dict]` entries are modelled as already
validated `PatientRequest` records: the two per-rule pydantic conversions in
`execute_rules_background` have identical field sets, so they accept exactly
the same dicts and are the identity on valid ones. -/
structure UnifiedRuleRequest where
  project_name : String
  project_id : Option String
  rules : List Int
  add_modifiers : Bool
  patients : List PatientRequest
  is_rollback : Bool
deriving Repr, DecidableEq

/-- The fresh merged record created the first time a patient id is seen (its
descriptive fields looked up from `request.patients` by patient id,
defaulting to `""`). -/
def freshMergedResult (requestPatients : List PatientRequest)
    (res : RulePatientResult) : MergedPatientResult :=
  let pd := requestPatients.find? (fun p => decide (p.patientid = res.patientid))
  { patientid := res.patientid
    appointmentid := res.appointmentid
    appointment_date := (pd.map (·.appointmentdate)).getD ""
    first_name := (pd.map (·.firstname)).getD ""
    last_name := (pd.map (·.lastname)).getD ""
    dob := (pd.map (·.dob)).getD ""
    status_1_changes_made := 0
    status_2_condition_met_no_changes := 0
    status_3_condition_not_met := 0
    status_4_errors := 0
    details := [] }

/-- Appending one rule detail to a merged record and bumping the matching
status counter. -/
def mergeDetailF (ruleNumber : Int) (res : RulePatientResult) :
    MergedPatientResult → MergedPatientResult :=
  fun m =>
    { m with
        details := m.details ++ [⟨toString ruleNumber, res.status, res.reason⟩]
        status_1_changes_made :=
          m.status_1_changes_made + (if res.status = 1 then 1 else 0)
        status_2_condition_met_no_changes :=
          m.status_2_condition_met_no_changes + (if res.status = 2 then 1 else 0)
        status_3_condition_not_met :=
          m.status_3_condition_not_met + (if res.status = 3 then 1 else 0)
        status_4_errors :=
          m.status_4_errors + (if res.status = 4 then 1 else 0) }

/-- The per-rule merge step of `execute_rules_background` (`for result in
all_rule_results`): create the patient's merged record on first sight, then
append the rule detail and bump the matching status counter. -/
def mergeOneResult (requestPatients : List PatientRequest) (ruleNumber : Int)
    (acc : List (String × MergedPatientResult)) (res : RulePatientResult) :
    List (String × MergedPatientResult) :=
  updateA res.patientid (mergeDetailF ruleNumber res)
    (if (lookupA res.patientid acc).isSome then acc
     else acc ++ [(res.patientid, freshMergedResult requestPatients res)])

/-- The combined per-rule results of the batching loop
(`all_rule_results`). -/
def allRuleResults (w : World) (req : UnifiedRuleRequest) (ruleNumber : Int) :
    List RulePatientResult :=
  ((batched10 req.patients).map (fun batch =>
    let rreq : RuleRequest := ⟨req.add_modifiers, batch, req.is_rollback⟩
    if ruleNumber = 21 then (rule21Run w rreq).results
    else (rule22Run w rreq).results)).flatten

/-- The loop state of `execute_rules_background`'s rule loop:
the `patient_results` dict (insertion-ordered, keyed by patient id) and
`rules_with_errors`. -/
structure OrchestratorState where
  merged : List (String × MergedPatientResult)
  rules_with_errors : List Int
deriving Repr, DecidableEq

/-- One iteration of the rule loop of `execute_rules_background`.  `raises`
is an oracle for the `except Exception` branch: a raising rule is recorded in
`rules_with_errors` and contributes nothing to the merge; an unknown rule
number is likewise recorded; otherwise the rule's batched results are merged.
The progress-tracker calls interleaved in the source do not feed back into
the merged results and are verified separately on the tracker model. -/
def execOneRule (w : World) (raises : Int → Bool) (req : UnifiedRuleRequest)
    (st : OrchestratorState) (ruleNumber : Int) : OrchestratorState :=
  if raises ruleNumber then
    { st with rules_with_errors := st.rules_with_errors ++ [ruleNumber] }
  else if ruleNumber = 21 ∨ ruleNumber = 22 then
    let merged' := (allRuleResults w req ruleNumber).foldl
      (mergeOneResult req.patients ruleNumber) st.merged
    { st with merged := merged' }
  else
    { st with rules_with_errors := st.rules_with_errors ++ [ruleNumber] }

/-- The run document upserted into the `runs` container (`project_doc`;
timestamps not modelled). -/
structure ProjectDoc where
  id : String
  project_name : String
  success : Bool
  message : String
  results : List MergedPatientResult
  total_rules_executed : Nat
  rules_with_errors : List Int
  execution_id : String
deriving Repr, DecidableEq

/-- The outcome of `execute_rules_background`.  `doc = none` models the early
returns (empty rules or patients), where nothing is merged or persisted; the
idempotent create-or-replace upsert is modelled as producing the document. -/
structure BackgroundOutcome where
  merged : List (String × MergedPatientResult)
  rules_with_errors : List Int
  overall_success : Bool
  doc : Option ProjectDoc
deriving Repr, DecidableEq

/-- `execute_rules_background`. -/
def executeRulesBackground (w : World) (raises : Int → Bool)
    (executionId : String) (req : UnifiedRuleRequest) (projectId : String) :
    BackgroundOutcome :=
  if req.rules = [] ∨ req.patients = [] then ⟨[], [], false, none⟩
  else
    let st := req.rules.foldl (execOneRule w raises req) ⟨[], []⟩
    let successfulRules : Int :=
      (req.rules.length : Int) - (st.rules_with_errors.length : Int)
    let overallSuccess := successfulRules > 0
    let message := "Executed " ++ toString req.rules.length ++ " rules. "
      ++ toString successfulRules ++ " successful, "
      ++ toString st.rules_with_errors.length ++ " failed."
    ⟨st.merged, st.rules_with_errors, overallSuccess,
      some
        { id := projectId
          project_name := req.project_name
          success := overallSuccess
          message := message
          results := st.merged.map (·.2)
          total_rules_executed := req.rules.length
          rules_with_errors := st.rules_with_errors
          execution_id := executionId }⟩

/-- The response body of `POST run` (the `UnifiedRuleResponse` pydantic
model). -/
structure UnifiedRuleResponse where
  success : Bool
  message : String
  results : List MergedPatientResult
  total_rules_executed : Nat
  rules_with_errors : List Int
  execution_id : Option String
  project_id : Option String
deriving Repr, DecidableEq

/-- What `unified_rules_endpoint` produces: the HTTP-200 response body, the
tracker store after the call, and the background task spawned by
`asyncio.create_task`, if any (`none` = no rule engine is ever invoked for
this request). -/
structure EndpointOutcome where
  response : UnifiedRuleResponse
  tracker : TrackerState
  background : Option (String × String)
deriving Repr, DecidableEq

/-- `unified_rules_endpoint`, with the generated `uuid.uuid4()` project id
and the tracker's generated execution id passed in explicitly.  Both
validation failures return normally (hence HTTP 200) with a
`success = false` body and a `null` execution id, without touching the
tracker or spawning the background task. -/
def unifiedRulesEndpoint (genProjectId genExecutionId : String)
    (st : TrackerState) (req : UnifiedRuleRequest) : EndpointOutcome :=
  let projectId := req.project_id.getD genProjectId
  if req.rules = [] then
    ⟨⟨false, "No rules specified in request", [], 0, [], none, some projectId⟩,
      st, none⟩
  else if req.patients = [] then
    ⟨⟨false, "No patients specified in request", [], 0, [], none, some projectId⟩,
      st, none⟩
  else
    let st' := createExecution genExecutionId (req.patients.length : Int)
      req.rules req.project_name st
    ⟨⟨true, "Rule execution started. Use execution_id to track progress.",
        [], req.rules.length, [], some genExecutionId, some projectId⟩,
      st', some (genExecutionId, projectId)⟩

/-! ## General lemmas -/

/-- Every character list is an initial segment of itself. -/
theorem strLeads_self (l : List Char) : strLeads l l = true := by
  induction l with
  | nil => rfl
  | cons a t ih => simp [strLeads, ih]

/-- Every string is a Python-substring of itself. -/
theorem pySubstr_self (s : String) : pySubstr s s = true := by
  unfold pySubstr
  cases h : s.toList with
  | nil => rfl
  | cons b t => simp [strInside, strLeads_self]

/-- The trace written by one step of the Rule 22 rollback scan: one
modifier-clearing write exactly when the (substring) target guard accepts
the procedure code, with the diagnosis blanked for a `"73560"` procedure. -/
theorem r22RollbackStep_trace (eid : String) (s : R22RollbackScan)
    (pr : ServiceProcedure) :
    (r22RollbackStep eid s pr).trace = s.trace ++
      (if isTargetProcedure pr.procedurecode then
        [⟨eid, pr.serviceid, [],
          if pr.procedurecode = "73560" then some "" else none⟩]
      else []) := by
  unfold r22RollbackStep
  by_cases ht : isTargetProcedure pr.procedurecode
  · by_cases h60 : pr.procedurecode = "73560"
    · rw [h60] at ht
      exact absurd ht (by decide)
    · simp [ht, h60]
  · simp [ht]

/-- The full Rule 22 rollback scan issues exactly one modifier-clearing write
per procedure accepted by the (substring) target guard, in procedure order. -/
theorem r22Rollback_fold_trace (eid : String) (procs : List ServiceProcedure)
    (s : R22RollbackScan) :
    (procs.foldl (r22RollbackStep eid) s).trace = s.trace ++
      ((procs.filter (fun pr => isTargetProcedure pr.procedurecode)).map
        (fun pr => (⟨eid, pr.serviceid, [],
          if pr.procedurecode = "73560" then some "" else none⟩ : ServiceUpdate))) := by
  induction procs generalizing s with
  | nil => simp
  | cons pr rest ih =>
    simp only [List.foldl_cons, ih, r22RollbackStep_trace, List.filter_cons]
    by_cases ht : isTargetProcedure pr.procedurecode <;> simp [ht]

/-- A procedure rejected by the target guard contributes no write in apply
mode. -/
theorem rule22EmitsFor_nontarget (eid : String) (procs : List ServiceProcedure)
    (addm : Bool) (pr : ServiceProcedure)
    (h : isTargetProcedure pr.procedurecode = false) :
    rule22EmitsFor eid procs addm pr = [] := by
  simp [rule22EmitsFor, h]

/-! ## C3: target-procedure selection -/

/-- C3 (amended): Rule 22 selects a procedure iff one of the 22 target codes
occurs as a *substring* of its procedure code (so every exact member of the
set is selected, but codes merely containing a target code are selected
too); in rollback mode the scan issues exactly one clearing write per
procedure accepted by that substring guard, and in apply mode a rejected
procedure is never written to. -/
theorem rule22_target_selection_is_substring_match :
    (∀ code, isTargetProcedure code = true ↔
      ∃ t ∈ targetProcedureCodes, pySubstr t code = true)
    ∧ (∀ code ∈ targetProcedureCodes, isTargetProcedure code = true)
    ∧ (∀ (eid : String) (s : R22RollbackScan) (procs : List ServiceProcedure),
        (procs.foldl (r22RollbackStep eid) s).trace = s.trace ++
        ((procs.filter (fun pr => isTargetProcedure pr.procedurecode)).map
          (fun pr => (⟨eid, pr.serviceid, [],
            if pr.procedurecode = "73560" then some "" else none⟩ : ServiceUpdate))))
    ∧ (∀ eid procs addm pr, isTargetProcedure pr.procedurecode = false →
        rule22EmitsFor eid procs addm pr = []) := by
  refine ⟨?_, ?_, ?_, ?_⟩
  · intro code
    simp [isTargetProcedure, List.any_eq_true]
  · intro code hc
    unfold isTargetProcedure
    rw [List.any_eq_true]
    exact ⟨code, hc, pySubstr_self code⟩
  · intro eid s procs
    exact r22Rollback_fold_trace eid procs s
  · intro eid procs addm pr h
    exact rule22EmitsFor_nontarget eid procs addm pr h

/-- Closed witness for the amended C3 statement: the exact member `"73030"`
is selected, and a procedure with the non-target code `"99213"` emits no
apply-mode write. -/
theorem rule22_target_selection_is_substring_match_witness :
    isTargetProcedure "73030" = true
    ∧ rule22EmitsFor "E1" [] true ⟨"99213", "S1", []⟩ = [] := by
  refine ⟨?_, ?_⟩
  · exact rule22_target_selection_is_substring_match.2.1 "73030" (by decide)
  · exact rule22_target_selection_is_substring_match.2.2.2 "E1" [] true
      ⟨"99213", "S1", []⟩ (by decide)

/-- A one-procedure world on which Rule 22's rollback selects a procedure
whose code is not one of the 22 target codes. -/
def targetCxWorld : World where
  getAppointment := fun _ =>
    some ⟨"A1", "P1", "E1", none, "OPEN", false, []⟩
  getServices := fun _ => [⟨"172170", "S1", []⟩]
  today := 0

/-- The patient submitted against `targetCxWorld`. -/
def targetCxPatient : PatientRequest :=
  ⟨"A1", "01/01/2024", "P1", "Jane", "Doe", ""⟩

/-- C3 counterexample: the procedure code `"172170"` is not a member of the
fixed set of 22 codes, yet the substring guard accepts it and the rollback
scan issues a clearing write for it. -/
theorem rule22_target_selection_counterexample :
    isTargetProcedure "172170" = true
    ∧ isTargetBySpecMembership "172170" = false
    ∧ (rule22RollbackPatient targetCxWorld targetCxPatient).modifier_removed = true
    ∧ (rule22RollbackPatient targetCxWorld targetCxPatient).trace =
        [⟨"E1", "S1", [], none⟩] := by
  refine ⟨by decide, by decide, ?_, ?_⟩ <;> rfl

/-! ## C8: progress scenario -/

/-- C8: after `create_execution(total_patients=100, rules=[21,22])` and
`update_rule_progress(21, 50)`, `get_progress` reports rule-21 percentage
50.0, overall percentage 25.0 (the unweighted mean of 50.0 and 0.0) and
overall `patients_processed` 50. -/
theorem progress_create_update_scenario :
    ((getProgress "exec-1" (updateRuleProgress "exec-1" 21 50
        (createExecution "exec-1" 100 [21, 22] "Default Project" []))).map
          (fun v => v.rule_21.percentage) = some 50)
    ∧ ((getProgress "exec-1" (updateRuleProgress "exec-1" 21 50
        (createExecution "exec-1" 100 [21, 22] "Default Project" []))).map
          (fun v => v.overall.percentage) = some 25)
    ∧ ((getProgress "exec-1" (updateRuleProgress "exec-1" 21 50
        (createExecution "exec-1" 100 [21, 22] "Default Project" []))).map
          (fun v => v.overall.patients_processed) = some 50) := by
  refine ⟨?_, ?_, ?_⟩ <;>
    norm_num [createExecution, updateRuleProgress, updateRuleProgressF,
      updateRuleProgressG, getProgress, insertA,
      lookupA, updateA, updateOverallProgress, pyMin, defaultRuleProgress,
      show toString (21 : Int) = "21" from rfl,
      show toString (22 : Int) = "22" from rfl]

/-! ## C2: the 73564 ↔ 73560 pairing -/

/-- One step of the Rule 22 apply scan writes exactly the updates
`rule22EmitsFor` describes, appended to the running trace. -/
theorem r22ScanStep_trace (eid : String) (procs : List ServiceProcedure)
    (addm : Bool) (s : R22Scan) (pr : ServiceProcedure) :
    (r22ScanStep eid procs addm s pr).trace =
      s.trace ++ rule22EmitsFor eid procs addm pr := by
  unfold r22ScanStep rule22EmitsFor
  by_cases ht : isTargetProcedure pr.procedurecode
  · simp only [ht, if_true]
    cases hdet : determineModifierFromDiagnoses pr.diagnoses with
    | none => simp
    | some m =>
      cases addm with
      | false => simp
      | true =>
        by_cases h64 : pr.procedurecode = "73564"
        · cases hpp : findPairedProcedure procs with
          | none => simp [h64, hpp]
          | some pp => simp [h64, hpp]
        · simp [h64]
  · simp [ht]

/-- The full Rule 22 apply scan's trace is the concatenation of the
per-procedure emissions. -/
theorem r22Scan_fold_trace (eid : String) (procs : List ServiceProcedure)
    (addm : Bool) (l : List ServiceProcedure) (s : R22Scan) :
    (l.foldl (r22ScanStep eid procs addm) s).trace =
      s.trace ++ l.flatMap (rule22EmitsFor eid procs addm) := by
  induction l generalizing s with
  | nil => simp
  | cons pr rest ih =>
    simp only [List.foldl_cons, ih, r22ScanStep_trace, List.flatMap_cons,
      List.append_assoc]

/-- C2: in Rule 22 apply mode with `add_modifiers = true`, whenever a
procedure with code 73564 is assigned RT (respectively LT) — i.e. its first
`"M"`-prefixed 1/2/0-suffixed diagnosis selects that modifier, so the write
`⟨encounter, service, [m], -⟩` is issued — and a procedure with code 73560
exists in the same encounter, then that sibling is issued the write carrying
exactly the opposite modifier (LT respectively RT) together with the
diagnosis payload `icd10codes = "Z0189"`, in both directions of the
pairing. -/
theorem rule22_paired_procedure_z0189
    (w : World) (p : PatientRequest) (a : Appointment)
    (ha : w.getAppointment p = some a) (he : a.encounterid ≠ "")
    (pr : ServiceProcedure) (hpr : pr ∈ w.getServices a.encounterid)
    (hcode : pr.procedurecode = "73564")
    (m : String) (hm : m = "RT" ∨ m = "LT")
    (hdet : determineModifierFromDiagnoses pr.diagnoses = some m)
    (pp : ServiceProcedure)
    (hpp : findPairedProcedure (w.getServices a.encounterid) = some pp) :
    (⟨a.encounterid, pr.serviceid, [m], none⟩ : ServiceUpdate)
        ∈ (rule22AnalyzePatient w true p).trace
    ∧ (⟨a.encounterid, pp.serviceid, [if m = "RT" then "LT" else "RT"],
          some "Z0189"⟩ : ServiceUpdate)
        ∈ (rule22AnalyzePatient w true p).trace := by
  have hpp60 : pp.procedurecode = "73560" := by
    have := List.find?_some hpp
    simpa [decide_eq_true_eq] using this
  have hemits : rule22EmitsFor a.encounterid (w.getServices a.encounterid) true pr =
      [⟨a.encounterid, pr.serviceid, [m], none⟩,
       ⟨a.encounterid, pp.serviceid, [if m = "RT" then "LT" else "RT"],
         some "Z0189"⟩] := by
    have ht : isTargetProcedure "73564" = true := by decide
    rcases hm with h | h <;> subst h <;>
      simp [rule22EmitsFor, hcode, ht, hdet, hpp, hpp60,
        rule22ModifiersPayload, oppositeModifier]
  have htrace : (rule22AnalyzePatient w true p).trace =
      (w.getServices a.encounterid).flatMap
        (rule22EmitsFor a.encounterid (w.getServices a.encounterid) true) := by
    unfold rule22AnalyzePatient
    rw [ha]
    simp only [he, if_true, ne_eq, not_false_iff]
    rw [r22Scan_fold_trace]
    simp [r22ScanInit]
  rw [htrace]
  constructor
  · exact List.mem_flatMap.mpr ⟨pr, hpr, by rw [hemits]; simp⟩
  · exact List.mem_flatMap.mpr ⟨pr, hpr, by rw [hemits]; simp⟩

/-- A two-procedure encounter (73564 with diagnosis `M511`, sibling 73560)
used to witness the pairing rule. -/
def pairedWorld : World where
  getAppointment := fun _ =>
    some ⟨"A1", "P1", "E1", none, "OPEN", false, []⟩
  getServices := fun _ =>
    [⟨"73564", "S64", [⟨"M511"⟩]⟩, ⟨"73560", "S60", [⟨"X10"⟩]⟩]
  today := 0

/-- The patient submitted against `pairedWorld`. -/
def pairedPatient : PatientRequest :=
  ⟨"A1", "01/01/2024", "P1", "Jane", "Doe", ""⟩

/-- Closed witness for C2: with diagnosis `M511` procedure 73564 is assigned
RT and the sibling 73560 is issued LT together with the `Z0189` diagnosis
payload. -/
theorem rule22_paired_procedure_z0189_witness :
    (⟨"E1", "S64", ["RT"], none⟩ : ServiceUpdate)
        ∈ (rule22AnalyzePatient pairedWorld true pairedPatient).trace
    ∧ (⟨"E1", "S60", ["LT"], some "Z0189"⟩ : ServiceUpdate)
        ∈ (rule22AnalyzePatient pairedWorld true pairedPatient).trace := by
  simpa using rule22_paired_procedure_z0189 pairedWorld pairedPatient
    ⟨"A1", "P1", "E1", none, "OPEN", false, []⟩ rfl (by decide)
    ⟨"73564", "S64", [⟨"M511"⟩]⟩ (by decide) rfl
    "RT" (Or.inl rfl) (by decide)
    ⟨"73560", "S60", [⟨"X10"⟩]⟩ (by decide)

/-! ## C5: Rule 21, E&M present but injection missing -/

/-- C5: for a patient whose appointment meets the missing-slip precondition
and whose encounter's procedures contain an E&M code but no injection code,
Rule 21 returns status 3 (condition not met) with the reason naming the
missing injection-code family. -/
theorem rule21_missing_injection_outcome
    (w : World) (p : PatientRequest) (a : Appointment) (addModifiers : Bool)
    (ha : w.getAppointment p = some a)
    (hmiss : (isMissingSlip w.today a).1 = true)
    (he : a.encounterid ≠ "")
    (helig : ∃ pr ∈ w.getServices a.encounterid, pr.procedurecode ∈ eligibleCodes)
    (hinj : ∀ pr ∈ w.getServices a.encounterid, pr.procedurecode ∉ injectionCodes) :
    (rule21Run w ⟨addModifiers, [p], false⟩).results =
      [⟨p.patientid, p.appointmentid, 3,
        "not eligible for modifier: E&M codes present but missing injection codes (requires both 99202-99215 and 20526-20611)"⟩] := by
  have hne : w.getServices a.encounterid ≠ [] := by
    rcases helig with ⟨pr, hpr, _⟩
    intro h
    rw [h] at hpr
    exact absurd hpr (List.not_mem_nil pr)
  have h1 : (w.getServices a.encounterid).any
      (fun pr => decide (pr.procedurecode ∈ eligibleCodes)) = true := by
    rw [List.any_eq_true]
    rcases helig with ⟨pr, hpr, hc⟩
    exact ⟨pr, hpr, by simpa using hc⟩
  have h2 : (w.getServices a.encounterid).any
      (fun pr => decide (pr.procedurecode ∈ injectionCodes)) = false := by
    simp only [List.any_eq_false]
    intro pr hpr
    simpa using hinj pr hpr
  have hcd : checkProcedureCodesDetailed (w.getServices a.encounterid) =
      (true, false) := by
    unfold checkProcedureCodesDetailed
    rw [h1, h2]
  have hana : rule21AnalyzePatient w addModifiers p =
      ⟨p.patientid, p.appointmentid, a.encounterid, false, true, false, false,
        (isMissingSlip w.today a).2⟩ := by
    unfold rule21AnalyzePatient
    rw [ha]
    simp only [hmiss, if_true, he, ite_true, hne, ite_not, hcd]
    simp [hne, he]
  unfold rule21Run
  simp only [List.map_cons, List.map_nil, hana]
  simp [rule21MergeEntry, rule21DetermineStatusAndReason, List.find?]

/-- A past open appointment with no claims whose encounter holds only the
E&M procedure 99213. -/
def missingInjWorld : World where
  getAppointment := fun _ =>
    some ⟨"A1", "P1", "E1", some 10, "OPEN", false, []⟩
  getServices := fun _ => [⟨"99213", "S1", []⟩]
  today := 20

/-- The patient submitted against `missingInjWorld`. -/
def missingInjPatient : PatientRequest :=
  ⟨"A1", "01/01/2024", "P1", "Jane", "Doe", ""⟩

/-- Closed witness for C5: procedures `[99213]` with a satisfied missing-slip
precondition yield status 3 with the missing-injection-codes reason. -/
theorem rule21_missing_injection_outcome_witness :
    (rule21Run missingInjWorld ⟨true, [missingInjPatient], false⟩).results =
      [⟨"P1", "A1", 3,
        "not eligible for modifier: E&M codes present but missing injection codes (requires both 99202-99215 and 20526-20611)"⟩] := by
  exact rule21_missing_injection_outcome missingInjWorld missingInjPatient
    ⟨"A1", "P1", "E1", some 10, "OPEN", false, []⟩ true rfl (by decide)
    (by decide) (by decide) (by decide)

/-! ## C6: synchronous validation of the run endpoint -/

/-- C6: a run request with empty `rules` or empty `patients` is rejected
synchronously — the endpoint returns normally (HTTP 200) with a
`success = false` body and a `null` execution id, the tracker is untouched
(no progress entry) and no background task is spawned (no rule engine is
invoked) — while a request with non-empty `rules` and `patients` returns
`success = true` with an execution id immediately and spawns the background
task. -/
theorem run_endpoint_validation (genProjectId genExecutionId : String)
    (st : TrackerState) (req : UnifiedRuleRequest) :
    ((req.rules = [] ∨ req.patients = []) →
      (unifiedRulesEndpoint genProjectId genExecutionId st req).response.success = false
      ∧ (unifiedRulesEndpoint genProjectId genExecutionId st req).response.execution_id = none
      ∧ (unifiedRulesEndpoint genProjectId genExecutionId st req).tracker = st
      ∧ (unifiedRulesEndpoint genProjectId genExecutionId st req).background = none)
    ∧ (req.rules ≠ [] → req.patients ≠ [] →
      (unifiedRulesEndpoint genProjectId genExecutionId st req).response.success = true
      ∧ (unifiedRulesEndpoint genProjectId genExecutionId st req).response.execution_id
          = some genExecutionId
      ∧ (unifiedRulesEndpoint genProjectId genExecutionId st req).background
          = some (genExecutionId, req.project_id.getD genProjectId)) := by
  constructor
  · rintro (h | h)
    · simp [unifiedRulesEndpoint, h]
    · by_cases hr : req.rules = [] <;> simp [unifiedRulesEndpoint, hr, h]
  · intro hr hp
    simp [unifiedRulesEndpoint, hr, hp]

/-- Closed witness for C6: a request with empty rules is rejected without a
background task, and a one-rule one-patient request starts one. -/
theorem run_endpoint_validation_witness :
    ((unifiedRulesEndpoint "proj-1" "exec-1" []
        ⟨"Default Project", none, [], true, [missingInjPatient], false⟩).response.success = false
      ∧ (unifiedRulesEndpoint "proj-1" "exec-1" []
        ⟨"Default Project", none, [], true, [missingInjPatient], false⟩).response.execution_id = none
      ∧ (unifiedRulesEndpoint "proj-1" "exec-1" []
        ⟨"Default Project", none, [], true, [missingInjPatient], false⟩).tracker = []
      ∧ (unifiedRulesEndpoint "proj-1" "exec-1" []
        ⟨"Default Project", none, [], true, [missingInjPatient], false⟩).background = none)
    ∧ ((unifiedRulesEndpoint "proj-1" "exec-1" []
        ⟨"Default Project", none, [21], true, [missingInjPatient], false⟩).response.success = true
      ∧ (unifiedRulesEndpoint "proj-1" "exec-1" []
        ⟨"Default Project", none, [21], true, [missingInjPatient], false⟩).response.execution_id
          = some "exec-1"
      ∧ (unifiedRulesEndpoint "proj-1" "exec-1" []
        ⟨"Default Project", none, [21], true, [missingInjPatient], false⟩).background
          = some ("exec-1", "proj-1")) := by
  constructor
  · exact (run_endpoint_validation "proj-1" "exec-1" []
      ⟨"Default Project", none, [], true, [missingInjPatient], false⟩).1 (Or.inl rfl)
  · exact (run_endpoint_validation "proj-1" "exec-1" []
      ⟨"Default Project", none, [21], true, [missingInjPatient], false⟩).2
      (by decide) (by simp)

/-! ## Tracker lemmas -/

/-- Looking up after an update: the updated key's value is mapped, all other
keys are unchanged. -/
theorem lookupA_updateA {α : Type} (k k' : String) (f : α → α)
    (l : List (String × α)) :
    lookupA k (updateA k' f l) =
      if k' = k then (lookupA k l).map f else lookupA k l := by
  induction l with
  | nil => simp [lookupA, updateA]
  | cons kv rest ih =>
    obtain ⟨k₀, v⟩ := kv
    by_cases h0 : k₀ = k'
    · subst h0
      by_cases h1 : k₀ = k <;> simp [lookupA, updateA, h1]
    · by_cases h1 : k₀ = k
      · subst h1
        have hne : k' ≠ k₀ := fun h => h0 h.symm
        simp [lookupA, updateA, h0, hne]
      · simp [lookupA, updateA, h0, h1, ih]

/-- `_update_overall_progress` touches only the `overall` sub-dict. -/
theorem updateOverallProgress_rules (e : ExecEntry) :
    (updateOverallProgress e).rules = e.rules := by
  unfold updateOverallProgress
  split <;> rfl

/-- `_update_overall_progress` leaves the execution status unchanged. -/
theorem updateOverallProgress_status (e : ExecEntry) :
    (updateOverallProgress e).status = e.status := by
  unfold updateOverallProgress
  split <;> rfl

/-- The per-rule record of an execution, as the successive `get_progress`
reads surface it. -/
def lookupRule (st : TrackerState) (eid key : String) : Option RuleProgress :=
  (lookupA eid st).bind (fun e => lookupA key e.rules)

/-- Unfolding `lookupRule` at a present execution id. -/
theorem lookupRule_eq (st : TrackerState) (eid key : String) (e : ExecEntry)
    (he : lookupA eid st = some e) :
    lookupRule st eid key = lookupA key e.rules := by
  unfold lookupRule
  rw [he]
  rfl

/-- `start_rule` on an unknown execution id. -/
theorem startRule_eq_none (eid : String) (r : Int) (st : TrackerState)
    (h : lookupA eid st = none) : startRule eid r st = st := by
  unfold startRule
  rw [h]

/-- `start_rule` on a present execution id. -/
theorem startRule_eq_some (eid : String) (r : Int) (st : TrackerState)
    (e : ExecEntry) (h : lookupA eid st = some e) :
    startRule eid r st =
      if (lookupA (toString r) e.rules).isSome = true then
        updateA eid (startRuleF r) st
      else st := by
  unfold startRule
  rw [h]

/-- `update_rule_progress` on an unknown execution id. -/
theorem updateRuleProgress_eq_none (eid : String) (r n : Int) (st : TrackerState)
    (h : lookupA eid st = none) : updateRuleProgress eid r n st = st := by
  unfold updateRuleProgress
  rw [h]

/-- `update_rule_progress` on a present execution id but unknown rule. -/
theorem updateRuleProgress_eq_norule (eid : String) (r n : Int)
    (st : TrackerState) (e : ExecEntry) (h : lookupA eid st = some e)
    (hr : lookupA (toString r) e.rules = none) :
    updateRuleProgress eid r n st = st := by
  unfold updateRuleProgress
  rw [h]
  simp only [hr]

/-- `update_rule_progress` on a present execution id and rule. -/
theorem updateRuleProgress_eq_some (eid : String) (r n : Int)
    (st : TrackerState) (e : ExecEntry) (rd : RuleProgress)
    (h : lookupA eid st = some e) (hr : lookupA (toString r) e.rules = some rd) :
    updateRuleProgress eid r n st = updateA eid (updateRuleProgressF r n) st := by
  unfold updateRuleProgress
  rw [h]
  simp only [hr]

/-- `complete_rule` on an unknown execution id. -/
theorem completeRule_eq_none (eid : String) (r : Int) (st : TrackerState)
    (h : lookupA eid st = none) : completeRule eid r st = st := by
  unfold completeRule
  rw [h]

/-- `complete_rule` on a present execution id. -/
theorem completeRule_eq_some (eid : String) (r : Int) (st : TrackerState)
    (e : ExecEntry) (h : lookupA eid st = some e) :
    completeRule eid r st =
      if (lookupA (toString r) e.rules).isSome = true then
        updateA eid (completeRuleF r) st
      else st := by
  unfold completeRule
  rw [h]

/-- The execution status a `get_progress` read reports. -/
def statusAt (st : TrackerState) (eid : String) : Option ExecStatus :=
  (lookupA eid st).map (·.status)

/-- The guard under which one mutator call cannot decrease any rule's
`patients_processed`: an `update_rule_progress` value must be at least the
rule's current count and at most its total (the tracker stores the argument
verbatim), and `complete_rule` (which writes `total_patients`) must not be
applied when the current count exceeds the total.  All other mutators never
touch `patients_processed`. -/
def safeOp (st : TrackerState) : TrackerOp → Bool
  | .opUpdateRuleProgress eid r n =>
    match lookupRule st eid (toString r) with
    | none => true
    | some rd => decide (rd.patients_processed ≤ n ∧ n ≤ rd.total_patients)
  | .opCompleteRule eid r =>
    match lookupRule st eid (toString r) with
    | none => true
    | some rd => decide (rd.patients_processed ≤ rd.total_patients)
  | _ => true

/-- A mutator-call sequence each of whose calls satisfies `safeOp` in the
state it runs in (this is the call pattern `execute_rules_background`
produces: per-rule counts grow batch by batch and never exceed the total). -/
def safeTrace (st : TrackerState) : List TrackerOp → Bool
  | [] => true
  | op :: ops => safeOp st op && safeTrace (trackerStep st op) ops

/-- Rule entries after an entry update whose function leaves the per-rule
map untouched. -/
theorem lookupRule_updateA_keep (eid₀ : String) (F : ExecEntry → ExecEntry)
    (st : TrackerState) (eid key : String) (hF : ∀ e, (F e).rules = e.rules) :
    lookupRule (updateA eid₀ F st) eid key = lookupRule st eid key := by
  unfold lookupRule
  rw [lookupA_updateA]
  by_cases h0 : eid₀ = eid
  · rw [if_pos h0]
    cases lookupA eid st with
    | none => rfl
    | some e =>
      show lookupA key (F e).rules = lookupA key e.rules
      rw [hF e]
  · rw [if_neg h0]

/-- Rule entries after an entry update whose function rewrites the per-rule
map at one key. -/
theorem lookupRule_updateA_rule (eid₀ : String) (F : ExecEntry → ExecEntry)
    (st : TrackerState) (eid key rkey : String) (g : RuleProgress → RuleProgress)
    (hF : ∀ e, (F e).rules = updateA rkey g e.rules) :
    lookupRule (updateA eid₀ F st) eid key =
      if eid₀ = eid then
        (if rkey = key then (lookupRule st eid key).map g
         else lookupRule st eid key)
      else lookupRule st eid key := by
  unfold lookupRule
  rw [lookupA_updateA]
  by_cases h0 : eid₀ = eid
  · rw [if_pos h0, if_pos h0]
    cases lookupA eid st with
    | none => simp
    | some e =>
      show lookupA key (F e).rules =
        if rkey = key then (lookupA key e.rules).map g else lookupA key e.rules
      rw [hF e, lookupA_updateA]
  · rw [if_neg h0, if_neg h0]

/-- Monotonicity transfer for an entry update leaving the per-rule map
untouched. -/
theorem mono_updateA_keep (eid₀ : String) (F : ExecEntry → ExecEntry)
    (st : TrackerState) (eid key : String) (hF : ∀ e, (F e).rules = e.rules)
    (rd : RuleProgress) (h : lookupRule st eid key = some rd) :
    ∃ rd', lookupRule (updateA eid₀ F st) eid key = some rd'
      ∧ rd.patients_processed ≤ rd'.patients_processed := by
  rw [lookupRule_updateA_keep eid₀ F st eid key hF, h]
  exact ⟨rd, rfl, le_refl _⟩

/-- Monotonicity transfer for an entry update rewriting the per-rule map at
one key with a count-non-decreasing function. -/
theorem mono_updateA_rule (eid₀ : String) (F : ExecEntry → ExecEntry)
    (st : TrackerState) (eid key rkey : String)
    (g : RuleProgress → RuleProgress)
    (hF : ∀ e, (F e).rules = updateA rkey g e.rules)
    (rd : RuleProgress) (h : lookupRule st eid key = some rd)
    (hg : rkey = key → eid₀ = eid →
      rd.patients_processed ≤ (g rd).patients_processed) :
    ∃ rd', lookupRule (updateA eid₀ F st) eid key = some rd'
      ∧ rd.patients_processed ≤ rd'.patients_processed := by
  rw [lookupRule_updateA_rule eid₀ F st eid key rkey g hF]
  by_cases h0 : eid₀ = eid
  · rw [if_pos h0]
    by_cases h1 : rkey = key
    · rw [if_pos h1, h]
      exact ⟨g rd, rfl, hg h1 h0⟩
    · rw [if_neg h1, h]
      exact ⟨rd, rfl, le_refl _⟩
  · rw [if_neg h0, h]
    exact ⟨rd, rfl, le_refl _⟩

/-- One safe mutator call keeps every rule entry present and never decreases
its `patients_processed`. -/
theorem trackerStep_mono (st : TrackerState) (op : TrackerOp)
    (hsafe : safeOp st op = true) (eid key : String) (rd : RuleProgress)
    (h : lookupRule st eid key = some rd) :
    ∃ rd', lookupRule (trackerStep st op) eid key = some rd'
      ∧ rd.patients_processed ≤ rd'.patients_processed := by
  cases op with
  | opStartExecution eid₀ =>
    show ∃ rd', lookupRule (startExecution eid₀ st) eid key = some rd' ∧ _
    unfold startExecution
    by_cases hin : (lookupA eid₀ st).isSome = true
    · rw [if_pos hin]
      exact mono_updateA_keep eid₀ startExecutionF st eid key (fun e => rfl) rd h
    · rw [if_neg hin]
      exact ⟨rd, h, le_refl _⟩
  | opStartRule eid₀ r =>
    cases he₀ : lookupA eid₀ st with
    | none =>
      show ∃ rd', lookupRule (startRule eid₀ r st) eid key = some rd' ∧ _
      rw [startRule_eq_none eid₀ r st he₀]
      exact ⟨rd, h, le_refl _⟩
    | some e₀ =>
      show ∃ rd', lookupRule (startRule eid₀ r st) eid key = some rd' ∧ _
      rw [startRule_eq_some eid₀ r st e₀ he₀]
      by_cases hin : (lookupA (toString r) e₀.rules).isSome = true
      · rw [if_pos hin]
        exact mono_updateA_rule eid₀ (startRuleF r) st eid key (toString r)
          startRuleG (fun e => rfl) rd h (fun _ _ => le_refl _)
      · rw [if_neg hin]
        exact ⟨rd, h, le_refl _⟩
  | opUpdateRuleProgress eid₀ r n =>
    cases he₀ : lookupA eid₀ st with
    | none =>
      show ∃ rd', lookupRule (updateRuleProgress eid₀ r n st) eid key = some rd' ∧ _
      rw [updateRuleProgress_eq_none eid₀ r n st he₀]
      exact ⟨rd, h, le_refl _⟩
    | some e₀ =>
      cases hr₀ : lookupA (toString r) e₀.rules with
      | none =>
        show ∃ rd', lookupRule (updateRuleProgress eid₀ r n st) eid key = some rd' ∧ _
        rw [updateRuleProgress_eq_norule eid₀ r n st e₀ he₀ hr₀]
        exact ⟨rd, h, le_refl _⟩
      | some rd₀ =>
        show ∃ rd', lookupRule (updateRuleProgress eid₀ r n st) eid key = some rd' ∧ _
        rw [updateRuleProgress_eq_some eid₀ r n st e₀ rd₀ he₀ hr₀]
        refine mono_updateA_rule eid₀ (updateRuleProgressF r n) st eid key
          (toString r) (updateRuleProgressG n)
          (fun e => updateOverallProgress_rules _) rd h ?_
        intro h1 h0
        show rd.patients_processed ≤ n
        have hrd₀ : rd₀ = rd := by
          subst h0 h1
          rw [lookupRule_eq st eid₀ (toString r) e₀ he₀, hr₀] at h
          exact Option.some.inj h
        subst hrd₀
        have hsr : lookupRule st eid₀ (toString r) = some rd₀ := by
          rw [lookupRule_eq st eid₀ (toString r) e₀ he₀, hr₀]
        simp only [safeOp, hsr, decide_eq_true_eq] at hsafe
        exact hsafe.1
  | opCompleteRule eid₀ r =>
    cases he₀ : lookupA eid₀ st with
    | none =>
      show ∃ rd', lookupRule (completeRule eid₀ r st) eid key = some rd' ∧ _
      rw [completeRule_eq_none eid₀ r st he₀]
      exact ⟨rd, h, le_refl _⟩
    | some e₀ =>
      show ∃ rd', lookupRule (completeRule eid₀ r st) eid key = some rd' ∧ _
      rw [completeRule_eq_some eid₀ r st e₀ he₀]
      by_cases hin : (lookupA (toString r) e₀.rules).isSome = true
      · rw [if_pos hin]
        refine mono_updateA_rule eid₀ (completeRuleF r) st eid key
          (toString r) completeRuleG
          (fun e => updateOverallProgress_rules _) rd h ?_
        intro h1 h0
        show rd.patients_processed ≤ rd.total_patients
        obtain ⟨rd₀, hr₀⟩ := Option.isSome_iff_exists.mp hin
        have hrd₀ : rd₀ = rd := by
          subst h0 h1
          rw [lookupRule_eq st eid₀ (toString r) e₀ he₀, hr₀] at h
          exact Option.some.inj h
        subst hrd₀
        have hsr : lookupRule st eid₀ (toString r) = some rd₀ := by
          rw [lookupRule_eq st eid₀ (toString r) e₀ he₀, hr₀]
        simp only [safeOp, hsr, decide_eq_true_eq] at hsafe
        exact hsafe
      · rw [if_neg hin]
        exact ⟨rd, h, le_refl _⟩
  | opCompleteExecution eid₀ ok =>
    show ∃ rd', lookupRule (completeExecution eid₀ ok st) eid key = some rd' ∧ _
    unfold completeExecution
    by_cases hin : (lookupA eid₀ st).isSome = true
    · rw [if_pos hin]
      exact mono_updateA_keep eid₀ (completeExecutionF ok) st eid key
        (fun e => rfl) rd h
    · rw [if_neg hin]
      exact ⟨rd, h, le_refl _⟩
  | opSetExecutionError eid₀ msg =>
    show ∃ rd', lookupRule (setExecutionError eid₀ msg st) eid key = some rd' ∧ _
    unfold setExecutionError
    by_cases hin : (lookupA eid₀ st).isSome = true
    · rw [if_pos hin]
      exact mono_updateA_keep eid₀ (setExecutionErrorF msg) st eid key
        (fun e => rfl) rd h
    · rw [if_neg hin]
      exact ⟨rd, h, le_refl _⟩

/-- Safe traces never decrease any rule's `patients_processed`. -/
theorem trackerRun_mono (ops : List TrackerOp) :
    ∀ st : TrackerState, safeTrace st ops = true →
    ∀ eid key rd, lookupRule st eid key = some rd →
    ∃ rd', lookupRule (trackerRun st ops) eid key = some rd'
      ∧ rd.patients_processed ≤ rd'.patients_processed := by
  induction ops with
  | nil => exact fun st _ eid key rd h => ⟨rd, h, le_refl _⟩
  | cons op ops ih =>
    intro st hs eid key rd h
    simp only [safeTrace, Bool.and_eq_true] at hs
    obtain ⟨rd₁, h₁, hle₁⟩ := trackerStep_mono st op hs.1 eid key rd h
    obtain ⟨rd₂, h₂, hle₂⟩ := ih (trackerStep st op) hs.2 eid key rd₁ h₁
    exact ⟨rd₂, h₂, le_trans hle₁ hle₂⟩

/-- Every mutator either leaves the store unchanged or rewrites one
execution entry, and that rewrite leaves the per-rule map unchanged or
rewrites it at one rule key. -/
theorem trackerStep_shape (st : TrackerState) (op : TrackerOp) :
    trackerStep st op = st ∨
    ∃ eid₀ F, trackerStep st op = updateA eid₀ F st ∧
      ∀ e : ExecEntry, (F e).rules = e.rules ∨
        ∃ rkey g, (F e).rules = updateA rkey g e.rules := by
  cases op with
  | opStartExecution eid₀ =>
    simp only [trackerStep]
    unfold startExecution
    by_cases hin : (lookupA eid₀ st).isSome = true
    · rw [if_pos hin]
      exact Or.inr ⟨eid₀, startExecutionF, rfl, fun e => Or.inl rfl⟩
    · rw [if_neg hin]
      exact Or.inl rfl
  | opStartRule eid₀ r =>
    simp only [trackerStep]
    cases he₀ : lookupA eid₀ st with
    | none => exact Or.inl (startRule_eq_none eid₀ r st he₀)
    | some e₀ =>
      rw [startRule_eq_some eid₀ r st e₀ he₀]
      by_cases hin : (lookupA (toString r) e₀.rules).isSome = true
      · rw [if_pos hin]
        exact Or.inr ⟨eid₀, startRuleF r, rfl,
          fun e => Or.inr ⟨toString r, startRuleG, rfl⟩⟩
      · rw [if_neg hin]
        exact Or.inl rfl
  | opUpdateRuleProgress eid₀ r n =>
    simp only [trackerStep]
    cases he₀ : lookupA eid₀ st with
    | none => exact Or.inl (updateRuleProgress_eq_none eid₀ r n st he₀)
    | some e₀ =>
      cases hr₀ : lookupA (toString r) e₀.rules with
      | none => exact Or.inl (updateRuleProgress_eq_norule eid₀ r n st e₀ he₀ hr₀)
      | some rd₀ =>
        rw [updateRuleProgress_eq_some eid₀ r n st e₀ rd₀ he₀ hr₀]
        exact Or.inr ⟨eid₀, updateRuleProgressF r n, rfl,
          fun e => Or.inr ⟨toString r, updateRuleProgressG n,
            updateOverallProgress_rules _⟩⟩
  | opCompleteRule eid₀ r =>
    simp only [trackerStep]
    cases he₀ : lookupA eid₀ st with
    | none => exact Or.inl (completeRule_eq_none eid₀ r st he₀)
    | some e₀ =>
      rw [completeRule_eq_some eid₀ r st e₀ he₀]
      by_cases hin : (lookupA (toString r) e₀.rules).isSome = true
      · rw [if_pos hin]
        exact Or.inr ⟨eid₀, completeRuleF r, rfl,
          fun e => Or.inr ⟨toString r, completeRuleG,
            updateOverallProgress_rules _⟩⟩
      · rw [if_neg hin]
        exact Or.inl rfl
  | opCompleteExecution eid₀ ok =>
    simp only [trackerStep]
    unfold completeExecution
    by_cases hin : (lookupA eid₀ st).isSome = true
    · rw [if_pos hin]
      exact Or.inr ⟨eid₀, completeExecutionF ok, rfl, fun e => Or.inl rfl⟩
    · rw [if_neg hin]
      exact Or.inl rfl
  | opSetExecutionError eid₀ msg =>
    simp only [trackerStep]
    unfold setExecutionError
    by_cases hin : (lookupA eid₀ st).isSome = true
    · rw [if_pos hin]
      exact Or.inr ⟨eid₀, setExecutionErrorF msg, rfl, fun e => Or.inl rfl⟩
    · rw [if_neg hin]
      exact Or.inl rfl

/-- Mutator calls keep every present execution entry present. -/
theorem trackerStep_entry (st : TrackerState) (op : TrackerOp) (eid : String)
    (e : ExecEntry) (h : lookupA eid st = some e) :
    ∃ e', lookupA eid (trackerStep st op) = some e' := by
  rcases trackerStep_shape st op with heq | ⟨eid₀, F, heq, _⟩
  · rw [heq]
    exact ⟨e, h⟩
  · rw [heq, lookupA_updateA]
    by_cases h0 : eid₀ = eid
    · rw [if_pos h0, h]
      exact ⟨F e, rfl⟩
    · rw [if_neg h0]
      exact ⟨e, h⟩

/-- Mutator calls never create a per-rule entry that was absent. -/
theorem trackerStep_rule_none (st : TrackerState) (op : TrackerOp)
    (eid key : String) (h : lookupRule st eid key = none) :
    lookupRule (trackerStep st op) eid key = none := by
  rcases trackerStep_shape st op with heq | ⟨eid₀, F, heq, hF⟩
  · rw [heq]
    exact h
  · rw [heq]
    unfold lookupRule at h ⊢
    rw [lookupA_updateA]
    by_cases h0 : eid₀ = eid
    · rw [if_pos h0]
      cases he : lookupA eid st with
      | none => rfl
      | some e =>
        rw [he] at h
        have h' : lookupA key e.rules = none := h
        show lookupA key (F e).rules = none
        rcases hF e with hk | ⟨rkey, g, hk⟩
        · rw [hk]
          exact h'
        · rw [hk, lookupA_updateA]
          by_cases h1 : rkey = key
          · rw [if_pos h1, h']
            rfl
          · rw [if_neg h1]
            exact h'
    · rw [if_neg h0]
      exact h

/-- Run-level version of `trackerStep_entry`. -/
theorem trackerRun_entry (ops : List TrackerOp) :
    ∀ (st : TrackerState) (eid : String) (e : ExecEntry),
    lookupA eid st = some e →
    ∃ e', lookupA eid (trackerRun st ops) = some e' := by
  induction ops with
  | nil => exact fun st eid e h => ⟨e, h⟩
  | cons op ops ih =>
    intro st eid e h
    obtain ⟨e₁, h₁⟩ := trackerStep_entry st op eid e h
    exact ih (trackerStep st op) eid e₁ h₁

/-- Run-level version of `trackerStep_rule_none`. -/
theorem trackerRun_rule_none (ops : List TrackerOp) :
    ∀ (st : TrackerState) (eid key : String),
    lookupRule st eid key = none →
    lookupRule (trackerRun st ops) eid key = none := by
  induction ops with
  | nil => exact fun st eid key h => h
  | cons op ops ih =>
    intro st eid key h
    exact ih (trackerStep st op) eid key (trackerStep_rule_none st op eid key h)

/-- The rule-21/22 record surfaced by `get_progress`. -/
theorem getProgress_rule (st : TrackerState) (eid : String) (e : ExecEntry)
    (he : lookupA eid st = some e) :
    getProgress eid st = some
      { execution_id := eid
        status := e.status
        overall := e.overall
        rule_21 := (lookupA "21" e.rules).getD defaultRuleProgress
        rule_22 := (lookupA "22" e.rules).getD defaultRuleProgress
        error_message := e.error_message } := by
  unfold getProgress
  rw [he]

/-- Per-rule monotone read under a safe trace, stated on the
`getD`-defaulted view `get_progress` serves. -/
theorem monotone_view_key (st : TrackerState) (ops : List TrackerOp)
    (hsafe : safeTrace st ops = true) (eid key : String)
    (e e' : ExecEntry) (he : lookupA eid st = some e)
    (he' : lookupA eid (trackerRun st ops) = some e') :
    ((lookupA key e.rules).getD defaultRuleProgress).patients_processed ≤
      ((lookupA key e'.rules).getD defaultRuleProgress).patients_processed := by
  cases hk : lookupA key e.rules with
  | none =>
    have h0 : lookupRule st eid key = none := by
      rw [lookupRule_eq st eid key e he, hk]
    have h1 : lookupRule (trackerRun st ops) eid key = none :=
      trackerRun_rule_none ops st eid key h0
    rw [lookupRule_eq (trackerRun st ops) eid key e' he'] at h1
    rw [h1]
  | some rd =>
    have h0 : lookupRule st eid key = some rd := by
      rw [lookupRule_eq st eid key e he, hk]
    obtain ⟨rd', h1, hle⟩ := trackerRun_mono ops st hsafe eid key rd h0
    rw [lookupRule_eq (trackerRun st ops) eid key e' he'] at h1
    rw [h1]
    simpa using hle

/-! ## C9: monotonicity of `patients_processed` -/

/-- C9 (amended): `patients_processed` as reported by successive
`get_progress` reads never decreases across a mutator sequence *provided*
every `update_rule_progress` call passes a value at least the rule's current
count and at most its total, and `complete_rule` is not applied with the
count above the total (`safeTrace`) — the call pattern the orchestrator
produces.  The tracker itself stores the argument of
`update_rule_progress` verbatim and does not enforce monotonicity. -/
theorem progress_processed_monotone_safe (st : TrackerState)
    (ops : List TrackerOp) (hsafe : safeTrace st ops = true) (eid : String)
    (v : ProgressView) (h : getProgress eid st = some v) :
    ∃ v', getProgress eid (trackerRun st ops) = some v'
      ∧ v.rule_21.patients_processed ≤ v'.rule_21.patients_processed
      ∧ v.rule_22.patients_processed ≤ v'.rule_22.patients_processed := by
  obtain ⟨e, he⟩ : ∃ e, lookupA eid st = some e := by
    unfold getProgress at h
    cases he : lookupA eid st with
    | none => rw [he] at h; exact absurd h (by simp)
    | some e => exact ⟨e, rfl⟩
  obtain ⟨e', he'⟩ := trackerRun_entry ops st eid e he
  rw [getProgress_rule st eid e he] at h
  cases h
  refine ⟨_, getProgress_rule (trackerRun st ops) eid e' he', ?_, ?_⟩
  · exact monotone_view_key st ops hsafe eid "21" e e' he he'
  · exact monotone_view_key st ops hsafe eid "22" e e' he he'

/-- Closed witness for the amended C9: a safe sequence (update to 50, then
`complete_rule`) takes rule 21's count from 0 up to 100, never down. -/
theorem progress_processed_monotone_safe_witness :
    ∃ v', getProgress "e" (trackerRun (createExecution "e" 100 [21] "P" [])
        [.opUpdateRuleProgress "e" 21 50, .opCompleteRule "e" 21]) = some v'
      ∧ (0 : Int) ≤ v'.rule_21.patients_processed
      ∧ (0 : Int) ≤ v'.rule_22.patients_processed := by
  have h := progress_processed_monotone_safe (createExecution "e" 100 [21] "P" [])
    [.opUpdateRuleProgress "e" 21 50, .opCompleteRule "e" 21]
    (by decide) "e"
    { execution_id := "e"
      status := .pending
      overall := ⟨0, 0, 100, some 21, 1, 0⟩
      rule_21 := ⟨0, 0, 100, .pending⟩
      rule_22 := ⟨0, 0, 0, .pending⟩
      error_message := none }
    (by rfl)
  obtain ⟨v', h1, h2, h3⟩ := h
  exact ⟨v', h1, h2, h3⟩

/-- C9 counterexample: the tracker stores the passed count verbatim, so the
mutator sequence `update(21, 50); update(21, 30)` makes successive
`get_progress` reads of rule 21's `patients_processed` go from 50 down to
30. -/
theorem progress_processed_decreases_counterexample :
    ((getProgress "e" (updateRuleProgress "e" 21 50
        (createExecution "e" 100 [21] "P" []))).map
          (fun v => v.rule_21.patients_processed) = some 50)
    ∧ ((getProgress "e" (updateRuleProgress "e" 21 30 (updateRuleProgress "e" 21 50
        (createExecution "e" 100 [21] "P" [])))).map
          (fun v => v.rule_21.patients_processed) = some 30)
    ∧ (30 : Int) < 50 := by
  refine ⟨?_, ?_, by norm_num⟩ <;>
    norm_num [createExecution, updateRuleProgress, updateRuleProgressF,
      updateRuleProgressG, getProgress, insertA, lookupA, updateA,
      updateOverallProgress, pyMin, defaultRuleProgress,
      show toString (21 : Int) = "21" from rfl]

/-! ## C10: terminal statuses -/

/-- The status of one entry after it is rewritten. -/
theorem statusAt_overwrite (eid : String) (F : ExecEntry → ExecEntry)
    (st : TrackerState) (e : ExecEntry) (he : lookupA eid st = some e) :
    statusAt (updateA eid F st) eid = some ((F e).status) := by
  unfold statusAt
  rw [lookupA_updateA, if_pos rfl, he]
  rfl

/-- Execution statuses after an entry update that preserves them. -/
theorem statusAt_updateA_keep (eid₀ : String) (F : ExecEntry → ExecEntry)
    (st : TrackerState) (eid : String) (hF : ∀ e, (F e).status = e.status) :
    statusAt (updateA eid₀ F st) eid = statusAt st eid := by
  unfold statusAt
  rw [lookupA_updateA]
  by_cases h0 : eid₀ = eid
  · rw [if_pos h0]
    cases lookupA eid st with
    | none => rfl
    | some e =>
      show some ((F e).status) = some e.status
      rw [hF e]
  · rw [if_neg h0]

/-- C10 (amended): `Completed`/`Error` are terminal only with respect to
`start_rule`, `update_rule_progress` and `complete_rule`, which never change
an execution's status; `start_execution`, `complete_execution` and
`set_execution_error` overwrite the status of an existing execution
unconditionally — in particular `complete_execution` after
`set_execution_error` flips an `Error` execution to `Completed`, which is
exactly what the orchestrator's terminal `complete_execution` does after a
rule failure. -/
theorem progress_status_not_terminal (st : TrackerState)
    (eid eid' : String) (r n : Int) (msg : String) (b : Bool) :
    (statusAt (startRule eid' r st) eid = statusAt st eid)
    ∧ (statusAt (updateRuleProgress eid' r n st) eid = statusAt st eid)
    ∧ (statusAt (completeRule eid' r st) eid = statusAt st eid)
    ∧ (∀ e, lookupA eid st = some e →
        statusAt (completeExecution eid b st) eid
          = some (if b then .completed else .error)
        ∧ statusAt (setExecutionError eid msg st) eid = some .error
        ∧ statusAt (startExecution eid st) eid = some .running) := by
  refine ⟨?_, ?_, ?_, ?_⟩
  · cases he₀ : lookupA eid' st with
    | none => rw [startRule_eq_none eid' r st he₀]
    | some e₀ =>
      rw [startRule_eq_some eid' r st e₀ he₀]
      by_cases hin : (lookupA (toString r) e₀.rules).isSome = true
      · rw [if_pos hin]
        exact statusAt_updateA_keep eid' (startRuleF r) st eid (fun e => rfl)
      · rw [if_neg hin]
  · cases he₀ : lookupA eid' st with
    | none => rw [updateRuleProgress_eq_none eid' r n st he₀]
    | some e₀ =>
      cases hr₀ : lookupA (toString r) e₀.rules with
      | none => rw [updateRuleProgress_eq_norule eid' r n st e₀ he₀ hr₀]
      | some rd₀ =>
        rw [updateRuleProgress_eq_some eid' r n st e₀ rd₀ he₀ hr₀]
        exact statusAt_updateA_keep eid' (updateRuleProgressF r n) st eid
          (fun e => updateOverallProgress_status _)
  · cases he₀ : lookupA eid' st with
    | none => rw [completeRule_eq_none eid' r st he₀]
    | some e₀ =>
      rw [completeRule_eq_some eid' r st e₀ he₀]
      by_cases hin : (lookupA (toString r) e₀.rules).isSome = true
      · rw [if_pos hin]
        exact statusAt_updateA_keep eid' (completeRuleF r) st eid
          (fun e => updateOverallProgress_status _)
      · rw [if_neg hin]
  · intro e he
    have hs : (lookupA eid st).isSome = true := by rw [he]; rfl
    refine ⟨?_, ?_, ?_⟩
    · unfold completeExecution
      rw [if_pos hs, statusAt_overwrite eid (completeExecutionF b) st e he]
      rfl
    · unfold setExecutionError
      rw [if_pos hs, statusAt_overwrite eid (setExecutionErrorF msg) st e he]
      rfl
    · unfold startExecution
      rw [if_pos hs, statusAt_overwrite eid startExecutionF st e he]
      rfl

/-- Closed witness for the amended C10, at a one-rule execution entry. -/
theorem progress_status_not_terminal_witness :
    (statusAt (completeRule "e" 21 (createExecution "e" 100 [21] "P" [])) "e"
      = statusAt (createExecution "e" 100 [21] "P" []) "e")
    ∧ (statusAt (setExecutionError "e" "boom" (createExecution "e" 100 [21] "P" [])) "e"
      = some .error) := by
  have h := progress_status_not_terminal (createExecution "e" 100 [21] "P" [])
    "e" "e" 21 0 "boom" true
  refine ⟨h.2.2.1, ?_⟩
  have h4 := h.2.2.2 _ (by rfl)
  exact h4.2.1

/-- C10 counterexample: after `set_execution_error` the status is `Error`,
yet the subsequent `complete_execution(success=true)` — the orchestrator's
terminal step — changes it to `Completed`. -/
theorem progress_status_terminal_counterexample :
    (statusAt (setExecutionError "e" "boom"
        (createExecution "e" 100 [21] "P" [])) "e" = some .error)
    ∧ (statusAt (completeExecution "e" true (setExecutionError "e" "boom"
        (createExecution "e" 100 [21] "P" []))) "e" = some .completed)
    ∧ ExecStatus.completed ≠ ExecStatus.error := by
  refine ⟨by rfl, by rfl, by decide⟩

/-! ## Counting rule outcomes in merged run results -/

/-- How many outcomes for rule `rn` a merged record carries, when it belongs
to patient id `pid`. -/
def detailCount (m : MergedPatientResult) (pid rn : String) : Nat :=
  if m.patientid = pid then
    (m.details.filter (fun d => decide (d.rule_number = rn))).length
  else 0

/-- The number of RuleOutcomes for the pair `(pid, rn)` across a run's
results. -/
def countOutcomes (results : List MergedPatientResult) (pid rn : String) : Nat :=
  (results.map (fun m => detailCount m pid rn)).sum

/-- Every outcome in the results carries a status in {1, 2, 3, 4}. -/
def StatusesOK (results : List MergedPatientResult) : Prop :=
  ∀ m ∈ results, ∀ d ∈ m.details,
    d.status = 1 ∨ d.status = 2 ∨ d.status = 3 ∨ d.status = 4

/-- The `patient_results` dict is keyed by the records' patient ids. -/
def KeysMatch (acc : List (String × MergedPatientResult)) : Prop :=
  ∀ kv ∈ acc, kv.1 = kv.2.patientid

/-- A found association belongs to the list. -/
theorem lookupA_mem {α : Type} (k : String) (l : List (String × α)) (v : α)
    (h : lookupA k l = some v) : (k, v) ∈ l := by
  induction l with
  | nil => exact absurd h (by simp [lookupA])
  | cons kv rest ih =>
    obtain ⟨k₀, v₀⟩ := kv
    by_cases h0 : k₀ = k
    · subst h0
      unfold lookupA at h
      rw [if_pos rfl] at h
      cases h
      exact List.mem_cons_self _ _
    · unfold lookupA at h
      rw [if_neg h0] at h
      exact List.mem_cons_of_mem _ (ih h)

/-- Members of an updated association list. -/
theorem mem_updateA {α : Type} (k : String) (f : α → α)
    (l : List (String × α)) (kv : String × α) (h : kv ∈ updateA k f l) :
    kv ∈ l ∨ ∃ v, lookupA k l = some v ∧ kv = (k, f v) := by
  induction l with
  | nil => exact absurd h (by simp [updateA])
  | cons kv₀ rest ih =>
    obtain ⟨k₀, v₀⟩ := kv₀
    by_cases h0 : k₀ = k
    · subst h0
      unfold updateA at h
      rw [if_pos rfl] at h
      rcases List.mem_cons.mp h with h1 | h1
      · exact Or.inr ⟨v₀, by unfold lookupA; rw [if_pos rfl], h1⟩
      · exact Or.inl (List.mem_cons_of_mem _ h1)
    · unfold updateA at h
      rw [if_neg h0] at h
      rcases List.mem_cons.mp h with h1 | h1
      · exact Or.inl (h1 ▸ List.mem_cons_self _ _)
      · rcases ih h1 with h2 | ⟨v, hv, hkv⟩
        · exact Or.inl (List.mem_cons_of_mem _ h2)
        · exact Or.inr ⟨v, by unfold lookupA; rw [if_neg h0]; exact hv, hkv⟩

/-- Updating one entry of the dict changes the outcome count by the change in
that entry. -/
theorem countOutcomes_updateA (k : String)
    (f : MergedPatientResult → MergedPatientResult)
    (acc : List (String × MergedPatientResult)) (pid rn : String)
    (v : MergedPatientResult) (δ : Nat) (hk : lookupA k acc = some v)
    (hf : detailCount (f v) pid rn = detailCount v pid rn + δ) :
    countOutcomes ((updateA k f acc).map Prod.snd) pid rn =
      countOutcomes (acc.map Prod.snd) pid rn + δ := by
  induction acc with
  | nil => exact absurd hk (by simp [lookupA])
  | cons kv rest ih =>
    obtain ⟨k₀, v₀⟩ := kv
    by_cases h0 : k₀ = k
    · subst h0
      unfold lookupA at hk
      rw [if_pos rfl] at hk
      cases hk
      unfold updateA
      rw [if_pos rfl]
      simp only [List.map_cons, countOutcomes, List.sum_cons, hf]
      omega
    · unfold lookupA at hk
      rw [if_neg h0] at hk
      unfold updateA
      rw [if_neg h0]
      simp only [List.map_cons, countOutcomes, List.sum_cons] at ih ⊢
      rw [ih hk]
      omega

/-- Appending a rule detail changes a record's count for `(pid, rn)` by
exactly the matching indicator. -/
theorem detailCount_mergeDetailF (rn' : Int) (res : RulePatientResult)
    (m : MergedPatientResult) (pid rn : String) :
    detailCount (mergeDetailF rn' res m) pid rn =
      detailCount m pid rn +
        (if m.patientid = pid ∧ toString rn' = rn then 1 else 0) := by
  unfold detailCount mergeDetailF
  by_cases hp : m.patientid = pid
  · rw [if_pos hp]
    simp only [hp, if_pos rfl, List.filter_append, List.length_append]
    by_cases hd : toString rn' = rn
    · simp [hd]
    · simp [hd]
  · simp [hp]

/-- A key absent from an association list is found in the appended
singleton. -/
theorem lookupA_append_missing {α : Type} (k : String) (v : α)
    (l : List (String × α)) (h : lookupA k l = none) :
    lookupA k (l ++ [(k, v)]) = some v := by
  induction l with
  | nil =>
    simp only [List.nil_append]
    unfold lookupA
    rw [if_pos rfl]
  | cons kv rest ih =>
    obtain ⟨k₀, v₀⟩ := kv
    simp only [List.cons_append]
    unfold lookupA at h ⊢
    by_cases h0 : k₀ = k
    · rw [if_pos h0] at h
      exact absurd h (by simp)
    · rw [if_neg h0] at h ⊢
      exact ih h

/-- The fresh record holds no details yet. -/
theorem detailCount_fresh (ps : List PatientRequest) (res : RulePatientResult)
    (pid rn : String) : detailCount (freshMergedResult ps res) pid rn = 0 := by
  unfold detailCount freshMergedResult
  by_cases hp : res.patientid = pid <;> simp [hp]

/-- The count effect of merging one per-rule result: one more outcome for
its patient id under the merged rule's number, everything else unchanged. -/
theorem mergeOneResult_count (ps : List PatientRequest) (rn' : Int)
    (acc : List (String × MergedPatientResult)) (res : RulePatientResult)
    (pid rn : String) (hkeys : KeysMatch acc) :
    countOutcomes ((mergeOneResult ps rn' acc res).map Prod.snd) pid rn =
      countOutcomes (acc.map Prod.snd) pid rn +
        (if res.patientid = pid ∧ toString rn' = rn then 1 else 0) := by
  unfold mergeOneResult
  by_cases hin : (lookupA res.patientid acc).isSome = true
  · rw [if_pos hin]
    obtain ⟨v, hv⟩ := Option.isSome_iff_exists.mp hin
    have hvp : v.patientid = res.patientid :=
      (hkeys (res.patientid, v) (lookupA_mem _ _ _ hv)).symm
    rw [countOutcomes_updateA res.patientid (mergeDetailF rn' res) acc pid rn v
      (if res.patientid = pid ∧ toString rn' = rn then 1 else 0) hv
      (by rw [detailCount_mergeDetailF, hvp])]
  · rw [if_neg hin]
    have hnone : lookupA res.patientid acc = none := by
      cases hl : lookupA res.patientid acc with
      | none => rfl
      | some v => rw [hl] at hin; exact absurd rfl hin
    have hv : lookupA res.patientid
        (acc ++ [(res.patientid, freshMergedResult ps res)]) =
          some (freshMergedResult ps res) :=
      lookupA_append_missing res.patientid (freshMergedResult ps res) acc hnone
    rw [countOutcomes_updateA res.patientid (mergeDetailF rn' res) _ pid rn
      (freshMergedResult ps res)
      (if res.patientid = pid ∧ toString rn' = rn then 1 else 0) hv
      (by rw [detailCount_mergeDetailF, detailCount_fresh]; rfl)]
    unfold countOutcomes
    rw [List.map_append, List.map_append, List.sum_append]
    simp [detailCount_fresh]

/-- A record's statuses are all in {1, 2, 3, 4}. -/
def SOK (m : MergedPatientResult) : Prop :=
  ∀ d ∈ m.details, d.status = 1 ∨ d.status = 2 ∨ d.status = 3 ∨ d.status = 4

/-- `updateA` with a patient-id-preserving function keeps the dict keyed by
patient ids. -/
theorem keysMatch_updateA (k : String)
    (f : MergedPatientResult → MergedPatientResult)
    (l : List (String × MergedPatientResult))
    (hf : ∀ m, (f m).patientid = m.patientid) (h : KeysMatch l) :
    KeysMatch (updateA k f l) := by
  intro kv hkv
  rcases mem_updateA k f l kv hkv with h1 | ⟨v, hv, hkv2⟩
  · exact h kv h1
  · subst hkv2
    show k = (f v).patientid
    rw [hf v]
    exact h (k, v) (lookupA_mem k l v hv)

/-- The conditional insert of `mergeOneResult` keeps the dict keyed by
patient ids. -/
theorem keysMatch_insert (ps : List PatientRequest) (res : RulePatientResult)
    (acc : List (String × MergedPatientResult)) (h : KeysMatch acc) :
    KeysMatch (if (lookupA res.patientid acc).isSome then acc
      else acc ++ [(res.patientid, freshMergedResult ps res)]) := by
  by_cases hin : (lookupA res.patientid acc).isSome = true
  · rw [if_pos hin]
    exact h
  · rw [if_neg hin]
    intro kv hkv
    rcases List.mem_append.mp hkv with h1 | h1
    · exact h kv h1
    · have : kv = (res.patientid, freshMergedResult ps res) := by
        simpa using h1
      subst this
      rfl

/-- Merging one result keeps the dict keyed by patient ids. -/
theorem mergeOneResult_keys (ps : List PatientRequest) (rn' : Int)
    (acc : List (String × MergedPatientResult)) (res : RulePatientResult)
    (h : KeysMatch acc) : KeysMatch (mergeOneResult ps rn' acc res) := by
  unfold mergeOneResult
  exact keysMatch_updateA res.patientid (mergeDetailF rn' res) _
    (fun m => rfl) (keysMatch_insert ps res acc h)

/-- Records of the conditional insert carry only statuses already present
or none. -/
theorem statuses_insert (ps : List PatientRequest) (res : RulePatientResult)
    (acc : List (String × MergedPatientResult))
    (h : ∀ kv ∈ acc, SOK kv.2) :
    ∀ kv ∈ (if (lookupA res.patientid acc).isSome then acc
      else acc ++ [(res.patientid, freshMergedResult ps res)]), SOK kv.2 := by
  by_cases hin : (lookupA res.patientid acc).isSome = true
  · rw [if_pos hin]
    exact h
  · rw [if_neg hin]
    intro kv hkv
    rcases List.mem_append.mp hkv with h1 | h1
    · exact h kv h1
    · have : kv = (res.patientid, freshMergedResult ps res) := by
        simpa using h1
      subst this
      intro d hd
      exact absurd hd (by simp [freshMergedResult])

/-- Merging one result with a status in {1,2,3,4} preserves the status
invariant. -/
theorem mergeOneResult_statuses (ps : List PatientRequest) (rn' : Int)
    (acc : List (String × MergedPatientResult)) (res : RulePatientResult)
    (hacc : ∀ kv ∈ acc, SOK kv.2)
    (hres : res.status = 1 ∨ res.status = 2 ∨ res.status = 3 ∨ res.status = 4) :
    ∀ kv ∈ mergeOneResult ps rn' acc res, SOK kv.2 := by
  intro kv hkv
  unfold mergeOneResult at hkv
  rcases mem_updateA _ _ _ kv hkv with h1 | ⟨v, hv, hkv2⟩
  · exact statuses_insert ps res acc hacc kv h1
  · subst hkv2
    intro d hd
    have hvOK : SOK v :=
      statuses_insert ps res acc hacc (res.patientid, v) (lookupA_mem _ _ _ hv)
    have hd' : d ∈ v.details ++ [⟨toString rn', res.status, res.reason⟩] := hd
    rcases List.mem_append.mp hd' with h2 | h2
    · exact hvOK d h2
    · have : d = ⟨toString rn', res.status, res.reason⟩ := by simpa using h2
      subst this
      exact hres

/-- Folding a batch of per-rule results keeps the dict keyed by patient
ids. -/
theorem mergeFold_keys (ps : List PatientRequest) (rn' : Int)
    (results : List RulePatientResult) :
    ∀ acc, KeysMatch acc →
      KeysMatch (results.foldl (mergeOneResult ps rn') acc) := by
  induction results with
  | nil => exact fun acc h => h
  | cons res rest ih =>
    intro acc h
    exact ih (mergeOneResult ps rn' acc res) (mergeOneResult_keys ps rn' acc res h)

/-- Folding a batch of per-rule results adds, for each `(pid, rn)`, exactly
the number of batch entries for that patient when `rn` is the merged rule's
number. -/
theorem mergeFold_count (ps : List PatientRequest) (rn' : Int)
    (results : List RulePatientResult) (pid rn : String) :
    ∀ acc, KeysMatch acc →
      countOutcomes ((results.foldl (mergeOneResult ps rn') acc).map Prod.snd) pid rn =
        countOutcomes (acc.map Prod.snd) pid rn +
          (if toString rn' = rn then
            results.countP (fun res => decide (res.patientid = pid))
          else 0) := by
  induction results with
  | nil =>
    intro acc _
    simp
  | cons res rest ih =>
    intro acc h
    simp only [List.foldl_cons]
    rw [ih (mergeOneResult ps rn' acc res) (mergeOneResult_keys ps rn' acc res h),
      mergeOneResult_count ps rn' acc res pid rn h, List.countP_cons]
    by_cases hrn : toString rn' = rn
    · by_cases hp : res.patientid = pid
      · simp [hrn, hp]
        omega
      · simp [hrn, hp]
    · simp [hrn]

/-- Folding a batch whose statuses are in {1,2,3,4} preserves the status
invariant. -/
theorem mergeFold_statuses (ps : List PatientRequest) (rn' : Int)
    (results : List RulePatientResult)
    (hres : ∀ res ∈ results,
      res.status = 1 ∨ res.status = 2 ∨ res.status = 3 ∨ res.status = 4) :
    ∀ acc, (∀ kv ∈ acc, SOK kv.2) →
      ∀ kv ∈ results.foldl (mergeOneResult ps rn') acc, SOK kv.2 := by
  induction results with
  | nil => exact fun acc h => h
  | cons res rest ih =>
    intro acc h
    exact ih (fun r hr => hres r (List.mem_cons_of_mem _ hr))
      (mergeOneResult ps rn' acc res)
      (mergeOneResult_statuses ps rn' acc res h
        (hres res (List.mem_cons_self _ _)))

/-! ## Per-rule results: one row per requested patient, statuses in
{1, 2, 3, 4} -/

/-- `Rule21.run` produces exactly the merge of the per-patient analyses over
the requested patients (also for the empty list, where both sides are
empty). -/
theorem rule21Run_results (w : World) (am : Bool) (b : List PatientRequest)
    (rb : Bool) :
    (rule21Run w ⟨am, b, rb⟩).results =
      b.map (rule21MergeEntry rb (b.map (rule21AnalyzePatient w am))) := by
  by_cases hb : b = []
  · subst hb
    rfl
  · simp [rule21Run, hb]

/-- `Rule22.run` produces exactly the merge of the per-patient analyses over
the requested patients, in either mode. -/
theorem rule22Run_results (w : World) (am : Bool) (b : List PatientRequest)
    (rb : Bool) :
    (rule22Run w ⟨am, b, rb⟩).results =
      if rb then b.map (rule22MergeEntryRollback (b.map (rule22RollbackPatient w)))
      else b.map (rule22MergeEntryApply (b.map (rule22AnalyzePatient w am))) := by
  by_cases hb : b = []
  · subst hb
    by_cases hrb : rb = true <;> simp [rule22Run, hrb]
  · by_cases hrb : rb = true <;> simp [rule22Run, hb, hrb]

/-- The merged row of a requested patient carries that patient's id
(Rule 21). -/
theorem rule21MergeEntry_patientid (rb : Bool) (analyses : List R21Analysis)
    (p : PatientRequest) :
    (rule21MergeEntry rb analyses p).patientid = p.patientid := by
  unfold rule21MergeEntry
  cases analyses.find? (fun r => decide (r.patient_id = p.patientid)) <;> rfl

/-- The merged row of a requested patient carries that patient's id
(Rule 22 apply mode). -/
theorem rule22MergeEntryApply_patientid (analyses : List R22Analysis)
    (p : PatientRequest) :
    (rule22MergeEntryApply analyses p).patientid = p.patientid := by
  unfold rule22MergeEntryApply
  cases analyses.find? (fun r => decide (r.patient_id = p.patientid)) <;> rfl

/-- The merged row of a requested patient carries that patient's id
(Rule 22 rollback mode). -/
theorem rule22MergeEntryRollback_patientid (analyses : List R22Rollback)
    (p : PatientRequest) :
    (rule22MergeEntryRollback analyses p).patientid = p.patientid := by
  unfold rule22MergeEntryRollback
  cases analyses.find? (fun r => decide (r.patient_id = p.patientid)) <;> rfl

/-- `Rule21.determine_status_and_reason` only produces statuses 1-4. -/
theorem rule21Determine_status (slip : R21Analysis) (ma e : Bool) (msg : String) :
    (rule21DetermineStatusAndReason slip ma e msg).1 = 1
    ∨ (rule21DetermineStatusAndReason slip ma e msg).1 = 2
    ∨ (rule21DetermineStatusAndReason slip ma e msg).1 = 3
    ∨ (rule21DetermineStatusAndReason slip ma e msg).1 = 4 := by
  unfold rule21DetermineStatusAndReason
  split_ifs <;> simp

/-- Rule 21 outcome rows carry statuses 1-4. -/
theorem rule21MergeEntry_status (rb : Bool) (analyses : List R21Analysis)
    (p : PatientRequest) :
    (rule21MergeEntry rb analyses p).status = 1
    ∨ (rule21MergeEntry rb analyses p).status = 2
    ∨ (rule21MergeEntry rb analyses p).status = 3
    ∨ (rule21MergeEntry rb analyses p).status = 4 := by
  unfold rule21MergeEntry
  cases analyses.find? (fun r => decide (r.patient_id = p.patientid)) with
  | none => simp
  | some r =>
    cases rb with
    | true => simp [rule21RollbackMerge]
    | false =>
      simpa using rule21Determine_status r r.modifier_added_successfully false ""

/-- Rule 22 apply-mode outcome rows carry statuses 1-4. -/
theorem rule22MergeEntryApply_status (analyses : List R22Analysis)
    (p : PatientRequest) :
    (rule22MergeEntryApply analyses p).status = 1
    ∨ (rule22MergeEntryApply analyses p).status = 2
    ∨ (rule22MergeEntryApply analyses p).status = 3
    ∨ (rule22MergeEntryApply analyses p).status = 4 := by
  unfold rule22MergeEntryApply
  cases analyses.find? (fun r => decide (r.patient_id = p.patientid)) with
  | none => simp
  | some r =>
    show (rule22ApplyMerge r).1 = 1 ∨ (rule22ApplyMerge r).1 = 2
      ∨ (rule22ApplyMerge r).1 = 3 ∨ (rule22ApplyMerge r).1 = 4
    unfold rule22ApplyMerge
    split_ifs <;> simp

/-- Rule 22 rollback-mode outcome rows carry statuses 1-4. -/
theorem rule22MergeEntryRollback_status (analyses : List R22Rollback)
    (p : PatientRequest) :
    (rule22MergeEntryRollback analyses p).status = 1
    ∨ (rule22MergeEntryRollback analyses p).status = 2
    ∨ (rule22MergeEntryRollback analyses p).status = 3
    ∨ (rule22MergeEntryRollback analyses p).status = 4 := by
  unfold rule22MergeEntryRollback
  cases analyses.find? (fun r => decide (r.patient_id = p.patientid)) with
  | none => simp
  | some r =>
    show (rule22RollbackMerge r).1 = 1 ∨ (rule22RollbackMerge r).1 = 2
      ∨ (rule22RollbackMerge r).1 = 3 ∨ (rule22RollbackMerge r).1 = 4
    unfold rule22RollbackMerge
    split_ifs <;> simp

/-- The batching loop covers the patient list exactly. -/
theorem flatten_batched10 {α : Type} (l : List α) :
    (batched10 l).flatten = l := by
  induction l using batched10.induct with
  | case1 => simp [batched10]
  | case2 a rest ih =>
    simp only [batched10, List.flatten_cons, ih]
    have ht : (a :: rest).take 10 = a :: rest.take 9 := rfl
    rw [ht, List.cons_append, List.take_append_drop]

/-- Counting over a flattened list of lists. -/
theorem countP_flatten {α : Type} (p : α → Bool) (L : List (List α)) :
    (L.flatten).countP p = (L.map (fun l => l.countP p)).sum := by
  induction L with
  | nil => rfl
  | cons l rest ih =>
    simp [List.countP_append, ih]

/-- The combined batched results of one rule hold exactly one row per
occurrence of each patient id in the request. -/
theorem allRuleResults_countP (w : World) (req : UnifiedRuleRequest)
    (r : Int) (pid : String) :
    (allRuleResults w req r).countP (fun res => decide (res.patientid = pid)) =
      req.patients.countP (fun p => decide (p.patientid = pid)) := by
  unfold allRuleResults
  rw [countP_flatten]
  have hbatch : ∀ b : List PatientRequest,
      ((if r = 21 then (rule21Run w ⟨req.add_modifiers, b, req.is_rollback⟩).results
        else (rule22Run w ⟨req.add_modifiers, b, req.is_rollback⟩).results).countP
          (fun res => decide (res.patientid = pid))) =
        b.countP (fun p => decide (p.patientid = pid)) := by
    intro b
    by_cases hr : r = 21
    · rw [if_pos hr, rule21Run_results, List.countP_map]
      refine List.countP_congr ?_
      intro p _
      simp [Function.comp, rule21MergeEntry_patientid]
    · rw [if_neg hr, rule22Run_results]
      by_cases hrb : req.is_rollback = true
      · rw [if_pos hrb, List.countP_map]
        refine List.countP_congr ?_
        intro p _
        simp [Function.comp, rule22MergeEntryRollback_patientid]
      · rw [if_neg hrb, List.countP_map]
        refine List.countP_congr ?_
        intro p _
        simp [Function.comp, rule22MergeEntryApply_patientid]
  calc ((batched10 req.patients).map (fun b =>
          (if r = 21 then (rule21Run w ⟨req.add_modifiers, b, req.is_rollback⟩).results
           else (rule22Run w ⟨req.add_modifiers, b, req.is_rollback⟩).results)) |>.map
            (fun l => l.countP (fun res => decide (res.patientid = pid)))).sum
      = ((batched10 req.patients).map (fun b =>
          b.countP (fun p => decide (p.patientid = pid)))).sum := by
        rw [List.map_map]
        refine congrArg List.sum (List.map_congr_left ?_)
        intro b _
        exact hbatch b
    _ = req.patients.countP (fun p => decide (p.patientid = pid)) := by
        rw [← countP_flatten, flatten_batched10]

/-- Every row of the combined batched results carries a status in
{1, 2, 3, 4}. -/
theorem allRuleResults_statuses (w : World) (req : UnifiedRuleRequest)
    (r : Int) :
    ∀ res ∈ allRuleResults w req r,
      res.status = 1 ∨ res.status = 2 ∨ res.status = 3 ∨ res.status = 4 := by
  intro res hres
  unfold allRuleResults at hres
  obtain ⟨l, hl, hres⟩ := List.mem_flatten.mp hres
  obtain ⟨b, _, hb⟩ := List.mem_map.mp hl
  subst hb
  by_cases hr : r = 21
  · rw [if_pos hr, rule21Run_results] at hres
    obtain ⟨p, _, hp⟩ := List.mem_map.mp hres
    subst hp
    exact rule21MergeEntry_status _ _ _
  · rw [if_neg hr, rule22Run_results] at hres
    by_cases hrb : req.is_rollback = true
    · rw [if_pos hrb] at hres
      obtain ⟨p, _, hp⟩ := List.mem_map.mp hres
      subst hp
      exact rule22MergeEntryRollback_status _ _
    · rw [if_neg hrb] at hres
      obtain ⟨p, _, hp⟩ := List.mem_map.mp hres
      subst hp
      exact rule22MergeEntryApply_status _ _

/-! ## The rule loop of `execute_rules_background` -/

/-- `rules_with_errors` collects exactly the raising and unknown rules, in
request order. -/
theorem execRules_rwe (w : World) (raises : Int → Bool)
    (req : UnifiedRuleRequest) (rules : List Int) :
    ∀ st : OrchestratorState,
      (rules.foldl (execOneRule w raises req) st).rules_with_errors =
        st.rules_with_errors ++
          rules.filter (fun r => raises r || !(decide (r = 21) || decide (r = 22))) := by
  induction rules with
  | nil => intro st; simp
  | cons r rest ih =>
    intro st
    rw [List.foldl_cons, ih, List.filter_cons]
    by_cases hraise : raises r = true
    · have hpred : (raises r || !(decide (r = 21) || decide (r = 22))) = true := by
        simp [hraise]
      have hst : (execOneRule w raises req st r).rules_with_errors =
          st.rules_with_errors ++ [r] := by
        unfold execOneRule
        rw [if_pos hraise]
      rw [hpred, hst]
      simp
    · by_cases hr : r = 21 ∨ r = 22
      · have hpred : (raises r || !(decide (r = 21) || decide (r = 22))) = false := by
          rcases hr with h | h <;> subst h <;> simp [hraise]
        have hst : (execOneRule w raises req st r).rules_with_errors =
            st.rules_with_errors := by
          unfold execOneRule
          rw [if_neg (by simp [hraise]), if_pos hr]
        rw [hpred, hst]
        simp
      · have hpred : (raises r || !(decide (r = 21) || decide (r = 22))) = true := by
          push_neg at hr
          simp [hraise, hr.1, hr.2]
        have hst : (execOneRule w raises req st r).rules_with_errors =
            st.rules_with_errors ++ [r] := by
          unfold execOneRule
          rw [if_neg (by simp [hraise]), if_neg hr]
        rw [hpred, hst]
        simp

/-- The rule loop keeps the merged dict keyed by patient ids. -/
theorem execRules_keys (w : World) (raises : Int → Bool)
    (req : UnifiedRuleRequest) (rules : List Int) :
    ∀ st : OrchestratorState, KeysMatch st.merged →
      KeysMatch ((rules.foldl (execOneRule w raises req) st).merged) := by
  induction rules with
  | nil => exact fun st h => h
  | cons r rest ih =>
    intro st h
    simp only [List.foldl_cons]
    refine ih _ ?_
    unfold execOneRule
    by_cases hraise : raises r = true
    · simpa [hraise] using h
    · by_cases hr : r = 21 ∨ r = 22
      · simp only [hraise, if_false, Bool.false_eq_true, hr, if_true]
        exact mergeFold_keys req.patients r (allRuleResults w req r) st.merged h
      · simpa [hraise, hr] using h

/-- The rule loop keeps every merged status in {1, 2, 3, 4}. -/
theorem execRules_statuses (w : World) (raises : Int → Bool)
    (req : UnifiedRuleRequest) (rules : List Int) :
    ∀ st : OrchestratorState, (∀ kv ∈ st.merged, SOK kv.2) →
      ∀ kv ∈ (rules.foldl (execOneRule w raises req) st).merged, SOK kv.2 := by
  induction rules with
  | nil => exact fun st h => h
  | cons r rest ih =>
    intro st h
    simp only [List.foldl_cons]
    refine ih _ ?_
    unfold execOneRule
    by_cases hraise : raises r = true
    · simpa [hraise] using h
    · by_cases hr : r = 21 ∨ r = 22
      · simp only [hraise, if_false, Bool.false_eq_true, hr, if_true]
        exact mergeFold_statuses req.patients r (allRuleResults w req r)
          (allRuleResults_statuses w req r) st.merged h
      · simpa [hraise, hr] using h

/-- `toString` separates 21 and 22. -/
theorem toString_eq_2122 (r r' : Int) (hr : r = 21 ∨ r = 22)
    (hr' : r' = 21 ∨ r' = 22) : (toString r' = toString r) ↔ r' = r := by
  rcases hr with h | h <;> rcases hr' with h' | h' <;> subst h <;> subst h' <;>
    simp [show toString (21 : Int) = "21" from rfl,
      show toString (22 : Int) = "22" from rfl]

/-- The rule loop adds, for a rule `r ∈ {21, 22}` and patient id `pid`,
exactly one outcome per non-raising occurrence of `r` in the request and per
occurrence of `pid` among the requested patients. -/
theorem execRules_count (w : World) (raises : Int → Bool)
    (req : UnifiedRuleRequest) (rules : List Int) (pid : String) (r : Int)
    (hr : r = 21 ∨ r = 22) :
    ∀ st : OrchestratorState, KeysMatch st.merged →
      countOutcomes ((rules.foldl (execOneRule w raises req) st).merged.map
          Prod.snd) pid (toString r) =
        countOutcomes (st.merged.map Prod.snd) pid (toString r) +
          (rules.countP (fun r' => !raises r' && decide (r' = r))) *
            req.patients.countP (fun p => decide (p.patientid = pid)) := by
  induction rules with
  | nil => intro st _; simp
  | cons r' rest ih =>
    intro st hkeys
    rw [List.foldl_cons, List.countP_cons]
    by_cases hraise : raises r' = true
    · have hstm : (execOneRule w raises req st r').merged = st.merged := by
        unfold execOneRule
        rw [if_pos hraise]
      rw [ih _ (by rw [hstm]; exact hkeys), hstm]
      simp [hraise]
    · by_cases hr' : r' = 21 ∨ r' = 22
      · have hstm : (execOneRule w raises req st r').merged =
            (allRuleResults w req r').foldl
              (mergeOneResult req.patients r') st.merged := by
          unfold execOneRule
          rw [if_neg (by simp [hraise]), if_pos hr']
        rw [ih _ (by
          rw [hstm]
          exact mergeFold_keys req.patients r' (allRuleResults w req r')
            st.merged hkeys), hstm]
        rw [mergeFold_count req.patients r' (allRuleResults w req r')
          pid (toString r) st.merged hkeys,
          allRuleResults_countP w req r' pid]
        by_cases heq : r' = r
        · subst heq
          rw [if_pos rfl]
          have h2 : (!raises r' && decide (r' = r')) = true := by
            simp [hraise]
          rw [h2]
          simp only [if_true]
          generalize req.patients.countP (fun p => decide (p.patientid = pid)) = c
          generalize countOutcomes (st.merged.map Prod.snd) pid (toString r') = b
          generalize rest.countP (fun x => !raises x && decide (x = r')) = k
          ring
        · have h1 : ¬ (toString r' = toString r) := by
            rw [toString_eq_2122 r r' hr hr']
            exact heq
          rw [if_neg h1]
          have h2 : (!raises r' && decide (r' = r)) = false := by
            simp [heq]
          rw [h2]
          simp
      · have hstm : (execOneRule w raises req st r').merged = st.merged := by
          unfold execOneRule
          rw [if_neg (by simp [hraise]), if_neg hr']
        rw [ih _ (by rw [hstm]; exact hkeys), hstm]
        have h2 : (!raises r' && decide (r' = r)) = false := by
          have : r' ≠ r := by
            intro h
            exact hr' (h ▸ hr)
          simp [this]
        rw [h2]
        simp

/-- Master characterization of `execute_rules_background` on a valid
request: the run document exists, its `rules_with_errors` are exactly the
raising/unknown rules, its results hold one outcome per non-raising
occurrence of each rule 21/22 and per occurrence of each patient id, and
every outcome status is in {1, 2, 3, 4}. -/
theorem runBackground_master (w : World) (raises : Int → Bool)
    (executionId : String) (req : UnifiedRuleRequest) (projectId : String)
    (hrules : req.rules ≠ []) (hp : req.patients ≠ []) :
    ∃ doc, (executeRulesBackground w raises executionId req projectId).doc = some doc
      ∧ doc.rules_with_errors =
          req.rules.filter (fun r => raises r || !(decide (r = 21) || decide (r = 22)))
      ∧ (∀ r, (r = 21 ∨ r = 22) → ∀ pid,
          countOutcomes doc.results pid (toString r) =
            (req.rules.countP (fun r' => !raises r' && decide (r' = r))) *
              req.patients.countP (fun p => decide (p.patientid = pid)))
      ∧ StatusesOK doc.results := by
  unfold executeRulesBackground
  rw [if_neg (by simp [hrules, hp])]
  refine ⟨_, rfl, ?_, ?_, ?_⟩
  · have h := execRules_rwe w raises req req.rules ⟨[], []⟩
    simpa using h
  · intro r hr pid
    have h := execRules_count w raises req req.rules pid r hr ⟨[], []⟩
      (by intro kv hkv; exact absurd hkv (List.not_mem_nil kv))
    simpa [countOutcomes] using h
  · intro m hm d hd
    have h := execRules_statuses w raises req req.rules ⟨[], []⟩
      (by intro kv hkv; exact absurd hkv (List.not_mem_nil kv))
    obtain ⟨kv, hkv, hkvm⟩ := List.mem_map.mp hm
    exact h kv hkv d (by rw [hkvm]; exact hd)

/-! ## C1: outcome multiplicity per (patient, rule) -/

/-- C1 (amended): in a finished run (non-empty rules and patients, no rule
raising), the persisted results carry, for every requested rule
`r ∈ {21, 22}` and every patient id, exactly `count of r in rules ×
occurrences of the id in the patient list` RuleOutcomes, each with status in
{1, 2, 3, 4}.  When the patient id occurs once and the rule once this is
exactly one outcome; a patient id submitted twice (with different
appointment ids) yields two outcomes for that (patient, rule) pair, merged
under a single patient record. -/
theorem run_outcome_multiplicity (w : World) (raises : Int → Bool)
    (executionId : String) (req : UnifiedRuleRequest) (projectId : String)
    (hrules : req.rules ≠ []) (hp : req.patients ≠ [])
    (hok : ∀ r ∈ req.rules, raises r = false)
    (r : Int) (hrIn : r ∈ req.rules) (hr : r = 21 ∨ r = 22) (pid : String) :
    ∃ doc,
      (executeRulesBackground w raises executionId req projectId).doc = some doc
      ∧ countOutcomes doc.results pid (toString r) =
          req.rules.count r *
            req.patients.countP (fun p => decide (p.patientid = pid))
      ∧ StatusesOK doc.results := by
  obtain ⟨doc, hdoc, _, hcount, hstat⟩ :=
    runBackground_master w raises executionId req projectId hrules hp
  refine ⟨doc, hdoc, ?_, hstat⟩
  rw [hcount r hr pid]
  have hpred : req.rules.countP (fun r' => !raises r' && decide (r' = r)) =
      req.rules.count r := by
    unfold List.count
    refine List.countP_congr ?_
    intro a ha
    by_cases hae : a = r
    · subst hae
      simp [hok a ha]
    · simp [hae]
  rw [hpred]

/-- The patient list of the duplicate-patient counterexample: the same
patient id `"P1"` under two different appointment ids. -/
def dupReq : UnifiedRuleRequest :=
  { project_name := "Default Project"
    project_id := none
    rules := [21]
    add_modifiers := true
    patients :=
      [⟨"A1", "01/01/2024", "P1", "Jane", "Doe", ""⟩,
       ⟨"A2", "01/02/2024", "P1", "Jane", "Doe", ""⟩]
    is_rollback := false }

/-- A world with no appointment data, enough to drive a full run. -/
def dupWorld : World where
  getAppointment := fun _ => none
  getServices := fun _ => []
  today := 0

/-- C1 counterexample: submitting the same patient id twice with different
appointment ids yields **two** RuleOutcomes for the (patient, rule 21) pair
in the finished run's results, not exactly one. -/
theorem run_outcome_duplicate_counterexample :
    ∃ doc,
      (executeRulesBackground dupWorld (fun _ => false) "exec-1" dupReq
        "proj-1").doc = some doc
      ∧ countOutcomes doc.results "P1" "21" = 2
      ∧ (2 : Nat) ≠ 1 := by
  obtain ⟨doc, hdoc, _, hcount, _⟩ :=
    runBackground_master dupWorld (fun _ => false) "exec-1" dupReq "proj-1"
      (by decide) (by decide)
  have h := hcount 21 (Or.inl rfl) "P1"
  rw [show toString (21 : Int) = "21" from rfl] at h
  have e1 : dupReq.rules.countP
      (fun r' => !(fun _ : Int => false) r' && decide (r' = (21 : Int))) = 1 := by
    decide
  have e2 : dupReq.patients.countP (fun p => decide (p.patientid = "P1")) = 2 := by
    decide
  rw [e1, e2] at h
  exact ⟨doc, hdoc, by rw [h], by decide⟩

/-- A one-rule one-patient request, used to witness the amended C1. -/
def singleReq : UnifiedRuleRequest :=
  { project_name := "Default Project"
    project_id := none
    rules := [21]
    add_modifiers := true
    patients := [⟨"A1", "01/01/2024", "P1", "Jane", "Doe", ""⟩]
    is_rollback := false }

/-- Closed witness for the amended C1: one rule, one patient, one outcome
(`1 × 1`), with statuses in {1, 2, 3, 4}. -/
theorem run_outcome_multiplicity_witness :
    ∃ doc,
      (executeRulesBackground dupWorld (fun _ => false) "exec-1" singleReq
        "proj-1").doc = some doc
      ∧ countOutcomes doc.results "P1" (toString (21 : Int)) =
          singleReq.rules.count 21 *
            singleReq.patients.countP (fun p => decide (p.patientid = "P1"))
      ∧ StatusesOK doc.results := by
  exact run_outcome_multiplicity dupWorld (fun _ => false) "exec-1" singleReq
    "proj-1" (by decide) (by decide) (by decide) 21 (by decide) (Or.inl rfl)
    "P1"

/-! ## C7: a failing rule is recorded and isolated -/

/-- C7: when executing one rule raises, that rule number is recorded in the
run summary's `rules_with_errors`, and every other requested, non-raising
rule is still executed, merged and persisted — at least one outcome exists
in the persisted document for each requested patient under each non-raising
rule, whatever other rules failed. -/
theorem rule_failure_recorded_and_isolated (w : World) (raises : Int → Bool)
    (executionId : String) (req : UnifiedRuleRequest) (projectId : String)
    (hrules : req.rules ≠ []) (hp : req.patients ≠ []) :
    ∃ doc,
      (executeRulesBackground w raises executionId req projectId).doc = some doc
      ∧ (∀ r ∈ req.rules, raises r = true → r ∈ doc.rules_with_errors)
      ∧ (∀ r ∈ req.rules, (r = 21 ∨ r = 22) → raises r = false →
          ∀ p ∈ req.patients,
            0 < countOutcomes doc.results p.patientid (toString r))
      ∧ StatusesOK doc.results := by
  obtain ⟨doc, hdoc, hrwe, hcount, hstat⟩ :=
    runBackground_master w raises executionId req projectId hrules hp
  refine ⟨doc, hdoc, ?_, ?_, hstat⟩
  · intro r hrIn hraise
    rw [hrwe]
    refine List.mem_filter.mpr ⟨hrIn, ?_⟩
    simp [hraise]
  · intro r hrIn hr hok p hpIn
    rw [hcount r hr p.patientid]
    refine Nat.mul_pos ?_ ?_
    · refine List.countP_pos_iff.mpr ⟨r, hrIn, ?_⟩
      simp [hok]
    · refine List.countP_pos_iff.mpr ⟨p, hpIn, ?_⟩
      simp

/-- Closed witness for C7: with rule 21 raising and rule 22 succeeding on a
one-patient request, 21 lands in `rules_with_errors` while the persisted
document still carries an outcome for (patient, rule 22). -/
theorem rule_failure_recorded_and_isolated_witness :
    ∃ doc,
      (executeRulesBackground dupWorld (fun r => decide (r = 21)) "exec-1"
        { project_name := "Default Project"
          project_id := none
          rules := [21, 22]
          add_modifiers := true
          patients := [⟨"A1", "01/01/2024", "P1", "Jane", "Doe", ""⟩]
          is_rollback := false } "proj-1").doc = some doc
      ∧ (21 : Int) ∈ doc.rules_with_errors
      ∧ 0 < countOutcomes doc.results "P1" (toString (22 : Int)) := by
  obtain ⟨doc, hdoc, h1, h2, _⟩ :=
    rule_failure_recorded_and_isolated dupWorld (fun r => decide (r = 21))
      "exec-1"
      { project_name := "Default Project"
        project_id := none
        rules := [21, 22]
        add_modifiers := true
        patients := [⟨"A1", "01/01/2024", "P1", "Jane", "Doe", ""⟩]
        is_rollback := false } "proj-1" (by decide) (by decide)
  exact ⟨doc, hdoc, h1 21 (by decide) (by decide),
    h2 22 (by decide) (Or.inr rfl) (by decide)
      ⟨"A1", "01/01/2024", "P1", "Jane", "Doe", ""⟩ (by decide)⟩

end Portal
